import Mathlib

/-!
Verification development for the `rrdb` resource-record database of the
dns-tools repository (packages `lib` and `rrdb`).

The Go source is shallowly embedded: the trie of `node` values becomes a
mutually inductive rose tree (`Node`/`Children`), the in-place mutations of
the Go methods become functions returning the updated store together with a
`GoRes` outcome, and Go `error` values become `GoRes.err`/`Except.error`
carrying the formatted message.  A Go runtime panic (reachable in `SetMX`
through an unchecked index) is modelled by `GoRes.panic`.  Go `int` is a
64-bit signed integer on all platforms this repository targets; every value
involved here is range-checked explicitly, so it is embedded as `Int`.
Go map iteration order is unspecified; children are kept in insertion order
and order-sensitive claims are stated up to multiset equality/permutation.
-/

namespace DnsTools

/-! ### Character and string helpers (models of the Go standard library) -/

/-- `[a-zA-Z0-9]`, the character class used by the hostname regex. -/
def isAlnum (c : Char) : Bool :=
  ('a' ≤ c && c ≤ 'z') || ('A' ≤ c && c ≤ 'Z') || ('0' ≤ c && c ≤ '9')

/-- ASCII lower-casing of one character; models `strings.ToLower` on the
ASCII inputs this database handles. -/
def lowerChar (c : Char) : Char :=
  if 'A' ≤ c && c ≤ 'Z' then Char.ofNat (c.toNat + 32) else c

/-- ASCII lower-casing of a string (model of Go `strings.ToLower`). -/
def lowerStr (s : String) : String :=
  String.mk (s.toList.map lowerChar)

/-- Does the character list start with the first argument?  Helper for the
model of Go strings.HasPrefix (all inputs here are ASCII, so bytes and
characters coincide). -/
def listStarts : List Char → List Char → Bool
  | [], _ => true
  | _ :: _, [] => false
  | p :: ps, c :: cs => p == c && listStarts ps cs

/-- Model of Go strings.HasPrefix(s, pre) for ASCII strings. -/
def strStarts (s pre : String) : Bool :=
  listStarts pre.toList s.toList

/-- Split a character list at every `'.'` (model of Go `strings.Split` with
separator `"."`; an input without dots yields a single piece, empty pieces
are kept). -/
def splitDots : List Char → List (List Char)
  | [] => [[]]
  | '.' :: rest => [] :: splitDots rest
  | c :: rest =>
    match splitDots rest with
    | [] => [[c]]
    | l :: ls => (c :: l) :: ls

/-- Model of Go `strings.Trim(s, ".")`: remove leading and trailing dots. -/
def trimDots (s : String) : String :=
  String.mk ((((s.toList.dropWhile (· = '.')).reverse.dropWhile (· = '.')).reverse))

/-- Model of Go `strings.SplitN(s, " ", 2)`: split at the first space only;
a string without a space yields a one-element list. -/
def splitN2 (s : String) : List String :=
  let cs := s.toList
  match cs.findIdx? (· = ' ') with
  | none => [s]
  | some i => [String.mk (cs.take i), String.mk (cs.drop (i + 1))]

/-- Model of Go `strconv.ParseInt(s, 10, 64)`: optional sign, at least one
decimal digit, value representable in a signed 64-bit integer; `none` is
Go's error result. -/
def parseInt64 (s : String) : Option Int :=
  let cs := s.toList
  let signed : Int × List Char :=
    match cs with
    | '+' :: rest => (1, rest)
    | '-' :: rest => (-1, rest)
    | _ => (1, cs)
  let sign := signed.1
  let digits := signed.2
  if digits.isEmpty then none
  else if !digits.all (fun c => '0' ≤ c && c ≤ '9') then none
  else
    let v : Int := sign * (digits.foldl (fun a c => 10 * a + (c.toNat - '0'.toNat)) 0 : Nat)
    if v < -(2 ^ 63) || v > 2 ^ 63 - 1 then none else some v

/-- Quote one character as Go `fmt.Sprintf("%q", ·)` does for the printable
ASCII text stored in TXT records: backslash-escape `"` and `\`. -/
def quoteChar (c : Char) : List Char :=
  if c = '"' then ['\\', '"']
  else if c = '\\' then ['\\', '\\']
  else [c]

/-- Model of Go `fmt.Sprintf("%q", s)` for the printable ASCII strings a
TXT record stores: wrap in double quotes, escaping quotes and backslashes. -/
def goQuote (s : String) : String :=
  String.mk ('"' :: (s.toList.flatMap quoteChar) ++ ['"'])

/-- Byte length of a string — the meaning of Go `len(s)` on a `string` —
as the sum of the UTF-8 sizes of its characters. -/
def byteLen (s : String) : Nat :=
  (s.toList.map Char.utf8Size).sum

/-- A string of byte length zero has no characters. -/
theorem byteLen_ne_zero {s : String} (h : s.toList ≠ []) : byteLen s ≠ 0 := by
  unfold byteLen
  cases hcs : s.toList with
  | nil => exact absurd hcs h
  | cons c rest =>
    have := Char.utf8Size_pos c
    simp only [List.map_cons, List.sum_cons]
    omega

/-! ### Package `lib` (`lib/lib.go`) -/

/-- One inner (non-final) label of `regexHostname`:
`[a-zA-Z0-9_]` alone, or `[a-zA-Z0-9_][a-zA-Z0-9\-]*[a-zA-Z0-9]`. -/
def innerLabelOK (cs : List Char) : Bool :=
  match cs with
  | [] => false
  | [c] => isAlnum c || c = '_'
  | c :: rest =>
    (isAlnum c || c = '_') &&
      rest.dropLast.all (fun d => isAlnum d || d = '-') &&
      (match rest.getLast? with
       | some d => isAlnum d
       | none => false)

/-- The final label of `regexHostname`:
`[A-Za-z0-9]` alone, or `[A-Za-z0-9][A-Za-z0-9\-]*[A-Za-z0-9]`. -/
def finalLabelOK (cs : List Char) : Bool :=
  match cs with
  | [] => false
  | [c] => isAlnum c
  | c :: rest =>
    isAlnum c &&
      rest.dropLast.all (fun d => isAlnum d || d = '-') &&
      (match rest.getLast? with
       | some d => isAlnum d
       | none => false)

/-- Model of `lib.IsValidFQDN` (as a Bool; Go returns a non-nil error
exactly when this is false).  The Go regex is
`^(inner\.)*final\.$`; since neither label class contains a dot, matching
is equivalent to: the string ends in `'.'` and, splitting what precedes it
at every dot, all labels but the last satisfy `inner` and the last
satisfies `final`. -/
def IsValidFQDN (s : String) : Bool :=
  let cs := s.toList
  match cs.getLast? with
  | some '.' =>
    let labs := splitDots cs.dropLast
    labs.dropLast.all innerLabelOK &&
      (match labs.getLast? with
       | some l => finalLabelOK l
       | none => false)
  | _ => false

/-- Model of `lib.IsValidTTL`: Go rejects `ttl < 0 || ttl > 2147483647`. -/
def IsValidTTL (ttl : Int) : Bool :=
  !(ttl < 0 || ttl > 2147483647)

/-- Decimal digits of a dotted-quad part: nonempty, at most 3 digits, no
leading zero (except "0" itself), value below 256.  Models the field
acceptance of Go `net.ParseIP` for IPv4 literals. -/
def v4FieldOK (cs : List Char) : Bool :=
  match cs with
  | [] => false
  | _ =>
    cs.all (fun c => '0' ≤ c && c ≤ '9') &&
      cs.length ≤ 3 &&
      (cs.head? ≠ some '0' || cs.length = 1) &&
      cs.foldl (fun a c => 10 * a + (c.toNat - '0'.toNat)) 0 < 256

/-- Is `s` a dotted-quad IPv4 literal as accepted by Go `net.ParseIP`? -/
def isV4Literal (s : String) : Bool :=
  match splitDots s.toList with
  | [a, b, c, d] => v4FieldOK a && v4FieldOK b && v4FieldOK c && v4FieldOK d
  | _ => false

/-- One 16-bit group of an IPv6 literal: one to four hex digits. -/
def v6GroupOK (cs : List Char) : Bool :=
  !cs.isEmpty && cs.length ≤ 4 &&
    cs.all (fun c => ('0' ≤ c && c ≤ '9') || ('a' ≤ c && c ≤ 'f') || ('A' ≤ c && c ≤ 'F'))

/-- Split a character list at every `':'`, keeping empty pieces. -/
def splitColons : List Char → List (List Char)
  | [] => [[]]
  | ':' :: rest => [] :: splitColons rest
  | c :: rest =>
    match splitColons rest with
    | [] => [[c]]
    | l :: ls => (c :: l) :: ls

/-- Weight of one colon-separated piece of an IPv6 literal: a hex group
counts one 16-bit slot, a trailing dotted quad counts two.  `none` marks an
ill-formed piece. -/
def v6PieceWeight (isLast : Bool) (cs : List Char) : Option Nat :=
  if v6GroupOK cs then some 1
  else if isLast && isV4Literal (String.mk cs) then some 2
  else none

/-- Sum the slot weights of the pieces of one side of an IPv6 literal;
only the overall last piece may be a dotted quad. -/
def v6SideWeight (isLastSide : Bool) : List (List Char) → Option Nat
  | [] => some 0
  | [p] => v6PieceWeight isLastSide p
  | p :: ps =>
    match v6PieceWeight false p with
    | none => none
    | some w =>
      match v6SideWeight isLastSide ps with
      | none => none
      | some ws => some (w + ws)

/-- Index of the first `::` in a character list, if any. -/
def findDC : List Char → Option Nat
  | [] => none
  | [_] => none
  | ':' :: ':' :: _ => some 0
  | _ :: rest =>
    match findDC rest with
    | none => none
    | some i => some (i + 1)

/-- Is `s` an IPv6 literal as accepted by Go `net.ParseIP`: either eight
colon-separated slots, or a single `::` standing for at least one zero
slot, with an optional trailing dotted quad occupying the last two slots. -/
def isV6Literal (s : String) : Bool :=
  let cs := s.toList
  match cs.findIdx? (· = ':') with
  | none => false
  | some _ =>
    match findDC cs with
    | none =>
      match v6SideWeight true (splitColons cs) with
      | some w => w = 8
      | none => false
    | some i =>
      let left := cs.take i
      let right := cs.drop (i + 2)
      -- a second `::` is rejected
      if (findDC right).isSome then false
      else
        let lw := if left.isEmpty then some 0 else v6SideWeight false (splitColons left)
        let rw := if right.isEmpty then some 0 else v6SideWeight true (splitColons right)
        match lw, rw with
        | some a, some b => a + b < 8
        | _, _ => false

/-- Is `s` a v4-mapped IPv6 literal (`::ffff:a.b.c.d` and spellings with
the same 16 bytes)?  For these Go's `IP.To4` is non-nil and `IP.String`
prints a dotted quad. -/
def isV4MappedV6 (s : String) : Bool :=
  isV6Literal s &&
    (strStarts (lowerStr s) "::ffff:" && isV4Literal (String.mk (s.toList.drop 7)))

/-- Model of `lib.IsValidIPv4` (Bool; Go errors exactly when false):
`net.ParseIP` succeeds and `To4()` is non-nil, i.e. the string is a
dotted-quad literal or a v4-mapped IPv6 literal. -/
def IsValidIPv4 (s : String) : Bool :=
  isV4Literal s || isV4MappedV6 s

/-- Model of `lib.IsValidIPv6` (Bool; Go errors exactly when false):
`net.ParseIP` succeeds and the canonical `String()` form still contains a
colon, i.e. a genuine IPv6 literal that is not v4-mapped. -/
def IsValidIPv6 (s : String) : Bool :=
  isV6Literal s && !isV4MappedV6 s

/-- Model of Go strings.HasSuffix for ASCII strings. -/
def strEnds (s suf : String) : Bool :=
  listStarts suf.toList.reverse s.toList.reverse

/-- `lib.MakeFQDN`: `zone` for `"@"`, `name` verbatim when it already ends
in a dot, else `name + "." + zone`. -/
def MakeFQDN (name zone : String) : String :=
  if name = "@" then zone
  else if strEnds name "." then name
  else name ++ "." ++ zone

/-! ### Package `rrdb` (`rrdb/rrdb.go`): data model -/

/-- Outcome of one Go store method: `ok` (nil error), `err` (a non-nil
error with its formatted message), or `panic` (a Go runtime panic; in this
code only the out-of-range index in `SetMX` can raise one). -/
inductive GoRes where
  | ok : GoRes
  | err (msg : String) : GoRes
  | panic (msg : String) : GoRes
deriving DecidableEq, Repr

/-- Did the call return a non-nil Go error? -/
def GoRes.isErr : GoRes → Bool
  | .err _ => true
  | _ => false

/-- The per-type payload fields of one trie `node` (everything except the
children map and the non-owning `parent` back-reference, which is written
but never read in `rrdb.go` and is therefore not modelled). -/
structure Payload where
  fqdn : String := ""
  nsRDatas : List String := []
  nsTTL : Int := 0
  mxRDatas : List String := []
  mxTTL : Int := 0
  txtRDatas : List String := []
  txtTTL : Int := 0
  txtSPF1 : Bool := false
  txtDKIM1 : Bool := false
  cnameRdata : String := ""
  cnameTTL : Int := 0
  aRDatas : List String := []
  aTTL : Int := 0
  aaaaRDatas : List String := []
  aaaaTTL : Int := 0
deriving DecidableEq, Repr

mutual
/-- One trie node: its payload plus its children.  The Go children map is
kept as an insertion-ordered association list. -/
inductive Node where
  | mk (pay : Payload) (children : Children)
deriving DecidableEq, Repr
/-- The label-keyed children of a node. -/
inductive Children where
  | nil
  | cons (label : String) (child : Node) (rest : Children)
deriving DecidableEq, Repr
end

/-- The payload of a node. -/
def Node.pay : Node → Payload
  | .mk p _ => p

/-- The children of a node. -/
def Node.children : Node → Children
  | .mk _ cs => cs

/-- Replace the payload of a node, keeping its children. -/
def Node.withPay (nd : Node) (p : Payload) : Node :=
  .mk p nd.children

/-- Map lookup `nd.children[label]`. -/
def Children.find : Children → String → Option Node
  | .nil, _ => none
  | .cons l c rest, label => if l = label then some c else rest.find label

/-- Map store `nd.children[label] = c`: replace the entry if the key is
present, append it otherwise. -/
def Children.set : Children → String → Node → Children
  | .nil, label, c => .cons label c .nil
  | .cons l c0 rest, label, c =>
    if l = label then .cons l c rest else .cons l c0 (rest.set label c)

/-- Is the children map nonempty (`len(nd.children) != 0`)? -/
def Children.isNonEmpty : Children → Bool
  | .nil => false
  | .cons _ _ _ => true

/-- `node.hasNS`: `len(nd.nsRDatas) != 0`. -/
def Node.hasNS (nd : Node) : Bool :=
  !nd.pay.nsRDatas.isEmpty

/-- `node.hasMX`. -/
def Node.hasMX (nd : Node) : Bool :=
  !nd.pay.mxRDatas.isEmpty

/-- `node.hasTXT`. -/
def Node.hasTXT (nd : Node) : Bool :=
  !nd.pay.txtRDatas.isEmpty

/-- `node.hasCNAME`: `len(nd.cnameRdata) != 0`. -/
def Node.hasCNAME (nd : Node) : Bool :=
  byteLen nd.pay.cnameRdata ≠ 0

/-- `node.hasA`. -/
def Node.hasA (nd : Node) : Bool :=
  !nd.pay.aRDatas.isEmpty

/-- `node.hasAAAA`. -/
def Node.hasAAAA (nd : Node) : Bool :=
  !nd.pay.aaaaRDatas.isEmpty

/-- `node.hasRecords`: any payload at all. -/
def Node.hasRecords (nd : Node) : Bool :=
  nd.hasNS || nd.hasMX || nd.hasTXT || nd.hasCNAME || nd.hasA || nd.hasAAAA

/-- `node.hasChildren`. -/
def Node.hasChildren (nd : Node) : Bool :=
  nd.children.isNonEmpty

/-- A freshly summoned node for `fqdn`: empty children, zero payload. -/
def newNode (fqdn : String) : Node :=
  .mk { fqdn := fqdn } .nil

deriving instance DecidableEq for Except

/-- The record store.  Go wraps the root node in a struct `RRDB`; the root
carries no FQDN and no payload of its own. -/
structure RRDB where
  root : Node
deriving DecidableEq, Repr

/-- `rrdb.New()`: a store holding only an empty root. -/
def RRDB.new : RRDB :=
  ⟨newNode ""⟩

/-- A detached `Record` as returned by the getters. -/
structure Record where
  FQDN : String
  RType : String
  TTL : Int
  RDatas : List String
deriving DecidableEq, Repr

/-! ### Walking the trie (`node.node` / `RRDB.node`) -/

/-- `strings.Join(ls[idx:], ".") + "."` for the walked FQDN: `l` is the
label of the node being created and `consumed` holds the labels of its
ancestors, innermost first (`ls[idx+1:]`). -/
def madeFqdn (l : String) (consumed : List String) : String :=
  String.intercalate "." (l :: consumed) ++ "."

/-- The labels of a (pre-validated) FQDN in walking order, outermost label
first: Go splits `strings.Trim(fqdn, ".")` at dots and recurses from the
last label down. -/
def revLabels (fqdn : String) : List String :=
  ((splitDots (trimDots fqdn).toList).map (fun cs => String.mk cs)).reverse

/-- Read-only walk (`node.node` with `create=false`): fails "FQDN outside
authority" when descending from a node that holds NS, "FQDN not found" when
a label is missing.  The target node's own NS payload is not examined. -/
def walkGet : Node → List String → Except String Node
  | nd, [] => .ok nd
  | nd, l :: rest =>
    if nd.hasNS then .error "FQDN outside authority"
    else
      match nd.children.find l with
      | some c => walkGet c rest
      | none => .error "FQDN not found"

/-- Mutating walk (`node.node` with `create=true` followed by the body of a
setter applied to the target): missing path nodes are summoned before the
recursion continues, so they persist even when `f` later reports an error —
exactly the in-place behaviour of the Go code.  `consumed` accumulates the
labels already walked for `madeFqdn`. -/
def walkApply (f : Node → Node × GoRes) : Node → List String → List String → Node × GoRes
  | nd, [], _ => f nd
  | nd, l :: rest, consumed =>
    if nd.hasNS then (nd, .err "FQDN outside authority")
    else
      match nd.children.find l with
      | some c =>
        let r := walkApply f c rest (l :: consumed)
        (.mk nd.pay (nd.children.set l r.1), r.2)
      | none =>
        let r := walkApply f (newNode (madeFqdn l consumed)) rest (l :: consumed)
        (.mk nd.pay (nd.children.set l r.1), r.2)

/-! ### Setters (node-level bodies and `RRDB` methods) -/

/-- The validation/duplicate loop of `SetNS` (also used, with the relevant
validity check, by `SetA`/`SetAAAA`): each rdata must satisfy `valid` and
must not repeat; `seen` is Go's `seen` map.  Returns the first error. -/
def rdatasCheck (valid : String → Bool) (errPre : String) :
    List String → List String → Option String
  | [], _ => none
  | r :: rs, seen =>
    if !valid r then some (errPre ++ r)
    else if seen.contains r then some ("rdata: duplicate entry: " ++ r)
    else rdatasCheck valid errPre rs (r :: seen)

/-- Body of `SetNS` at the target node (everything after the walk). -/
def nsSetter (ttl : Int) (rdatas : List String) (nd : Node) : Node × GoRes :=
  if !IsValidTTL ttl then (nd, .err ("invalid TTL: " ++ toString ttl))
  else if rdatas.isEmpty then (nd, .err "rdatas: empty")
  else if nd.hasNS then (nd, .err "NS record already set")
  else
    match rdatasCheck IsValidFQDN "rdata: invalid FQDN: " rdatas [] with
    | some e => (nd, .err e)
    | none =>
      if nd.hasRecords then (nd, .err "conflicting records")
      else if nd.hasChildren then (nd, .err "cannot delegate FQDN with children")
      else (nd.withPay { nd.pay with nsTTL := ttl, nsRDatas := rdatas }, .ok)

/-- The validation/duplicate loop of `SetMX`: split each rdata at the first
space, parse the preference, read the hostname — an rdata without a space
whose single piece parses as an integer makes Go index `mxLine[1]` out of
range, a runtime panic.  Duplicates are keyed by hostname. -/
def mxCheck : List String → List String → GoRes
  | [], _ => .ok
  | r :: rs, seen =>
    let mxLine := splitN2 r
    match parseInt64 (mxLine.headD "") with
    | none => .err ("rdata: invalid preference: " ++ mxLine.headD "")
    | some pref =>
      match mxLine[1]? with
      | none => .panic "runtime error: index out of range"
      | some hostname =>
        if pref < 0 || pref > 65535 then .err ("rdata: invalid preference: " ++ toString pref)
        else if !IsValidFQDN hostname then .err ("rdata: invalid FQDN: " ++ hostname)
        else if seen.contains hostname then .err ("rdata: duplicate entry: " ++ r)
        else mxCheck rs (hostname :: seen)

/-- Body of `SetMX` at the target node. -/
def mxSetter (ttl : Int) (rdatas : List String) (nd : Node) : Node × GoRes :=
  if !IsValidTTL ttl then (nd, .err ("invalid TTL: " ++ toString ttl))
  else if rdatas.isEmpty then (nd, .err "rdatas: empty")
  else if nd.hasMX then (nd, .err "MX record already set")
  else
    -- RFC7505 null MX skips validation entirely
    match (if rdatas = ["0 ."] then GoRes.ok else mxCheck rdatas []) with
    | .err e => (nd, .err e)
    | .panic m => (nd, .panic m)
    | .ok =>
      if nd.hasNS || nd.hasCNAME then (nd, .err "conflicting record")
      else (nd.withPay { nd.pay with mxTTL := ttl, mxRDatas := rdatas }, .ok)

/-- Is the lower-cased rdata an SPF1 string (`v=spf1 ` or `v=spf1;`)? -/
def isSPF1 (rdata : String) : Bool :=
  strStarts (lowerStr rdata) "v=spf1 " || strStarts (lowerStr rdata) "v=spf1;"

/-- Is the lower-cased rdata a DKIM1 string (`v=dkim1 ` or `v=dkim1;`)? -/
def isDKIM1 (rdata : String) : Bool :=
  strStarts (lowerStr rdata) "v=dkim1 " || strStarts (lowerStr rdata) "v=dkim1;"

/-- Body of `AddTXT` at the target node.  Go sets the SPF flag in place
before the DKIM check, so the DKIM error branch keeps that write — it is
modelled exactly that way (the two branches are in fact mutually
exclusive, see `isSPF1_isDKIM1_exclusive`). -/
def txtAdder (ttl : Int) (rdata : String) (nd : Node) : Node × GoRes :=
  if !IsValidTTL ttl then (nd, .err ("invalid TTL: " ++ toString ttl))
  else if nd.pay.txtTTL ≠ 0 && ttl ≠ nd.pay.txtTTL then (nd, .err "TTL already set")
  else if byteLen rdata = 0 then (nd, .err "rdata: empty")
  else if byteLen rdata > 255 then (nd, .err "rdata: too large")
  else if nd.pay.txtRDatas.contains rdata then
    (nd, .err ("rdata: duplicate entry: " ++ rdata))
  else if nd.hasNS || nd.hasCNAME then (nd, .err "conflicting records")
  else if isSPF1 rdata && nd.pay.txtSPF1 then (nd, .err "rdata: SPF already set")
  else
    let nd1 := if isSPF1 rdata then nd.withPay { nd.pay with txtSPF1 := true } else nd
    if isDKIM1 rdata && nd1.pay.txtDKIM1 then (nd1, .err "rdata: DKIM already set")
    else
      let nd2 := if isDKIM1 rdata then nd1.withPay { nd1.pay with txtDKIM1 := true } else nd1
      (nd2.withPay { nd2.pay with txtTTL := ttl, txtRDatas := nd2.pay.txtRDatas ++ [rdata] },
        .ok)

/-- Body of `SetCNAME` at the target node. -/
def cnameSetter (ttl : Int) (rdata : String) (nd : Node) : Node × GoRes :=
  if !IsValidTTL ttl then (nd, .err ("invalid TTL: " ++ toString ttl))
  else if nd.hasCNAME then (nd, .err "CNAME record already set")
  else if !IsValidFQDN rdata then (nd, .err ("rdata: invalid FQDN: " ++ rdata))
  else if nd.hasRecords then (nd, .err "conflicting records")
  else (nd.withPay { nd.pay with cnameTTL := ttl, cnameRdata := rdata }, .ok)

/-- Body of `SetA` at the target node. -/
def aSetter (ttl : Int) (rdatas : List String) (nd : Node) : Node × GoRes :=
  if !IsValidTTL ttl then (nd, .err ("invalid TTL: " ++ toString ttl))
  else if rdatas.isEmpty then (nd, .err "rdatas: empty")
  else if nd.hasA then (nd, .err "A record already set")
  else
    match rdatasCheck IsValidIPv4 "rdata: invalid IPv4 address: " rdatas [] with
    | some e => (nd, .err e)
    | none =>
      if nd.hasNS || nd.hasCNAME then (nd, .err "conflicting records")
      else (nd.withPay { nd.pay with aTTL := ttl, aRDatas := rdatas }, .ok)

/-- Body of `SetAAAA` at the target node. -/
def aaaaSetter (ttl : Int) (rdatas : List String) (nd : Node) : Node × GoRes :=
  if !IsValidTTL ttl then (nd, .err ("invalid TTL: " ++ toString ttl))
  else if rdatas.isEmpty then (nd, .err "rdatas: empty")
  else if nd.hasAAAA then (nd, .err "AAAA record already set")
  else
    match rdatasCheck IsValidIPv6 "rdata: invalid IPv6 address: " rdatas [] with
    | some e => (nd, .err e)
    | none =>
      if nd.hasNS || nd.hasCNAME then (nd, .err "conflicting records")
      else (nd.withPay { nd.pay with aaaaTTL := ttl, aaaaRDatas := rdatas }, .ok)

/-- Run one setter body against the store: `RRDB.node(fqdn, true)` (FQDN
validation, then the creating walk) followed by the body at the target.
Mirrors the Go in-place semantics: nodes created by the walk persist even
when the body then errors. -/
def RRDB.apply (db : RRDB) (fqdn : String) (f : Node → Node × GoRes) : RRDB × GoRes :=
  if !IsValidFQDN fqdn then (db, .err ("invalid FQDN: " ++ fqdn))
  else
    let r := walkApply f db.root (revLabels fqdn) []
    (⟨r.1⟩, r.2)

/-- `RRDB.SetNS`. -/
def RRDB.SetNS (db : RRDB) (fqdn : String) (ttl : Int) (rdatas : List String) : RRDB × GoRes :=
  db.apply fqdn (nsSetter ttl rdatas)

/-- `RRDB.SetMX`. -/
def RRDB.SetMX (db : RRDB) (fqdn : String) (ttl : Int) (rdatas : List String) : RRDB × GoRes :=
  db.apply fqdn (mxSetter ttl rdatas)

/-- `RRDB.AddTXT`. -/
def RRDB.AddTXT (db : RRDB) (fqdn : String) (ttl : Int) (rdata : String) : RRDB × GoRes :=
  db.apply fqdn (txtAdder ttl rdata)

/-- `RRDB.SetCNAME`. -/
def RRDB.SetCNAME (db : RRDB) (fqdn : String) (ttl : Int) (rdata : String) : RRDB × GoRes :=
  db.apply fqdn (cnameSetter ttl rdata)

/-- `RRDB.SetA`. -/
def RRDB.SetA (db : RRDB) (fqdn : String) (ttl : Int) (rdatas : List String) : RRDB × GoRes :=
  db.apply fqdn (aSetter ttl rdatas)

/-- `RRDB.SetAAAA`. -/
def RRDB.SetAAAA (db : RRDB) (fqdn : String) (ttl : Int) (rdatas : List String) : RRDB × GoRes :=
  db.apply fqdn (aaaaSetter ttl rdatas)

/-! ### Getters and `Records`/`Zone` -/

/-- `node.ns(ttl)`. -/
def Node.ns (nd : Node) (ttl : Int) : Except String Record :=
  if !nd.hasNS then .error "FQDN has no NS record"
  else
    .ok ⟨nd.pay.fqdn, "NS", if nd.pay.nsTTL ≠ 0 then nd.pay.nsTTL else ttl, nd.pay.nsRDatas⟩

/-- `node.mx(ttl)`. -/
def Node.mx (nd : Node) (ttl : Int) : Except String Record :=
  if !nd.hasMX then .error "FQDN has no MX record"
  else
    .ok ⟨nd.pay.fqdn, "MX", if nd.pay.mxTTL ≠ 0 then nd.pay.mxTTL else ttl, nd.pay.mxRDatas⟩

/-- `node.txt(ttl)`: the stored strings are returned quoted. -/
def Node.txt (nd : Node) (ttl : Int) : Except String Record :=
  if !nd.hasTXT then .error "FQDN has no TXT record"
  else
    .ok ⟨nd.pay.fqdn, "TXT", if nd.pay.txtTTL ≠ 0 then nd.pay.txtTTL else ttl,
      nd.pay.txtRDatas.map goQuote⟩

/-- `node.cname(ttl)`. -/
def Node.cname (nd : Node) (ttl : Int) : Except String Record :=
  if !nd.hasCNAME then .error "FQDN has no CNAME record"
  else
    .ok ⟨nd.pay.fqdn, "CNAME", if nd.pay.cnameTTL ≠ 0 then nd.pay.cnameTTL else ttl,
      [nd.pay.cnameRdata]⟩

/-- `node.a(ttl)`. -/
def Node.a (nd : Node) (ttl : Int) : Except String Record :=
  if !nd.hasA then .error "FQDN has no A record"
  else
    .ok ⟨nd.pay.fqdn, "A", if nd.pay.aTTL ≠ 0 then nd.pay.aTTL else ttl, nd.pay.aRDatas⟩

/-- `node.aaaa(ttl)`. -/
def Node.aaaa (nd : Node) (ttl : Int) : Except String Record :=
  if !nd.hasAAAA then .error "FQDN has no AAAA record"
  else
    .ok ⟨nd.pay.fqdn, "AAAA", if nd.pay.aaaaTTL ≠ 0 then nd.pay.aaaaTTL else ttl,
      nd.pay.aaaaRDatas⟩

/-- The records present at one node, in the fixed order NS, MX, TXT,
CNAME, A, AAAA (the non-recursive part of `node.records`). -/
def Node.ownRecords (nd : Node) (ttl : Int) : List Record :=
  ((nd.ns ttl).toOption.toList ++ (nd.mx ttl).toOption.toList ++
   (nd.txt ttl).toOption.toList ++ (nd.cname ttl).toOption.toList ++
   (nd.a ttl).toOption.toList ++ (nd.aaaa ttl).toOption.toList)

mutual
/-- `node.records(ttl, withChildren)`. -/
def Node.records (nd : Node) (ttl : Int) (withChildren : Bool) : List Record :=
  match nd with
  | .mk p cs =>
    (Node.mk p cs).ownRecords ttl ++
      (if withChildren then Children.recordsAll cs ttl else [])
/-- The concatenated recursive records of every child subtree. -/
def Children.recordsAll : Children → Int → List Record
  | .nil, _ => []
  | .cons _ c rest, ttl => c.records ttl true ++ rest.recordsAll ttl
end

/-- Read-only node lookup: `RRDB.node(fqdn, false)`. -/
def RRDB.node (db : RRDB) (fqdn : String) : Except String Node :=
  if !IsValidFQDN fqdn then .error ("invalid FQDN: " ++ fqdn)
  else walkGet db.root (revLabels fqdn)

/-- `RRDB.NS(fqdn, ttl)`. -/
def RRDB.NS (db : RRDB) (fqdn : String) (ttl : Int) : Except String Record :=
  (db.node fqdn).bind (fun nd => nd.ns ttl)

/-- `RRDB.MX(fqdn, ttl)`. -/
def RRDB.MX (db : RRDB) (fqdn : String) (ttl : Int) : Except String Record :=
  (db.node fqdn).bind (fun nd => nd.mx ttl)

/-- `RRDB.TXT(fqdn, ttl)`. -/
def RRDB.TXT (db : RRDB) (fqdn : String) (ttl : Int) : Except String Record :=
  (db.node fqdn).bind (fun nd => nd.txt ttl)

/-- `RRDB.CNAME(fqdn, ttl)`. -/
def RRDB.CNAME (db : RRDB) (fqdn : String) (ttl : Int) : Except String Record :=
  (db.node fqdn).bind (fun nd => nd.cname ttl)

/-- `RRDB.A(fqdn, ttl)`. -/
def RRDB.A (db : RRDB) (fqdn : String) (ttl : Int) : Except String Record :=
  (db.node fqdn).bind (fun nd => nd.a ttl)

/-- `RRDB.AAAA(fqdn, ttl)`. -/
def RRDB.AAAA (db : RRDB) (fqdn : String) (ttl : Int) : Except String Record :=
  (db.node fqdn).bind (fun nd => nd.aaaa ttl)

/-- `RRDB.Records(fqdn, ttl)`: all records at exactly that node. -/
def RRDB.Records (db : RRDB) (fqdn : String) (ttl : Int) : Except String (List Record) :=
  (db.node fqdn).map (fun nd => nd.records ttl false)

/-- `RRDB.Zone(fqdn, ttl)`: all records of the node and its whole subtree. -/
def RRDB.Zone (db : RRDB) (fqdn : String) (ttl : Int) : Except String (List Record) :=
  (db.node fqdn).map (fun nd => nd.records ttl true)

/-- Pure path lookup in the trie, with no authority checks; used to state
frame properties about what a call left untouched. -/
def nodeAt : Node → List String → Option Node
  | nd, [] => some nd
  | nd, l :: rest =>
    match nd.children.find l with
    | some c => nodeAt c rest
    | none => none

/-! ### Structural lemmas about children maps and walks -/

@[simp] theorem Node.pay_mk (p : Payload) (cs : Children) : (Node.mk p cs).pay = p := rfl

@[simp] theorem Node.children_mk (p : Payload) (cs : Children) : (Node.mk p cs).children = cs := rfl

theorem Node.eta (nd : Node) : Node.mk nd.pay nd.children = nd := by
  match nd with
  | .mk _ _ => rfl

theorem Children.find_set_self : ∀ (cs : Children) (l : String) (c : Node),
    (cs.set l c).find l = some c
  | .nil, l, c => by simp [Children.set, Children.find]
  | .cons l0 c0 rest, l, c => by
    by_cases h : l0 = l <;>
      simp [Children.set, Children.find, h, Children.find_set_self rest l c]

theorem Children.find_set_ne : ∀ (cs : Children) (l l' : String) (c : Node), l' ≠ l →
    (cs.set l c).find l' = cs.find l'
  | .nil, l, l', c, h => by
    have h' : ¬l = l' := fun hh => h hh.symm
    simp [Children.set, Children.find, h']
  | .cons l0 c0 rest, l, l', c, h => by
    have h' : ¬l = l' := fun hh => h hh.symm
    by_cases h0 : l0 = l
    · subst h0
      simp [Children.set, Children.find, h']
    · simp [Children.set, Children.find, h0, Children.find_set_ne rest l l' c h]

theorem Children.set_find_eq : ∀ (cs : Children) (l : String) (c : Node),
    cs.find l = some c → cs.set l c = cs
  | .nil, l, c => by simp [Children.find]
  | .cons l0 c0 rest, l, c => by
    by_cases h0 : l0 = l <;>
      simp_all [Children.set, Children.find, h0, Children.set_find_eq rest l c]

/-- A node rebuilt with its own payload keeps every payload predicate;
`hasNS` in particular only looks at the payload. -/
theorem Node.hasNS_mk_pay (nd : Node) (cs : Children) :
    (Node.mk nd.pay cs).hasNS = nd.hasNS := rfl

/-- Relating the mutating walk to a subsequent read on an already existing
target: the call's outcome is the node-level body's outcome, and reading
the path back yields the body's output node. -/
theorem walkApply_get (f : Node → Node × GoRes) :
    ∀ (ls : List String) (nd tg : Node) (acc : List String),
      walkGet nd ls = .ok tg →
      (walkApply f nd ls acc).2 = (f tg).2 ∧
      walkGet (walkApply f nd ls acc).1 ls = .ok (f tg).1
  | [], nd, tg, acc, h => by
    simp only [walkGet] at h
    cases h
    simp [walkApply, walkGet]
  | l :: rest, nd, tg, acc, h => by
    simp only [walkGet] at h
    by_cases hns : nd.hasNS
    · simp [hns] at h
    · simp only [hns, if_false, Bool.false_eq_true] at h
      cases hf : nd.children.find l with
      | none => rw [hf] at h; cases h
      | some c =>
        rw [hf] at h
        have ih := walkApply_get f rest c tg (l :: acc) h
        simp only [walkApply, hns, if_false, hf, Bool.false_eq_true]
        refine ⟨ih.1, ?_⟩
        simp only [walkGet, Node.hasNS_mk_pay, hns, if_false, Node.children_mk,
          Children.find_set_self, Bool.false_eq_true]
        exact ih.2

/-- A successful mutating walk reaches some target node (possibly freshly
created), succeeds on it, and reading the path back yields the body's
output. -/
theorem walkApply_ok (f : Node → Node × GoRes) :
    ∀ (ls : List String) (nd : Node) (acc : List String),
      (walkApply f nd ls acc).2 = .ok →
      ∃ tg tg', f tg = (tg', .ok) ∧ walkGet (walkApply f nd ls acc).1 ls = .ok tg'
  | [], nd, acc, h => by
    simp only [walkApply] at h ⊢
    exact ⟨nd, (f nd).1, by rw [← h], by simp [walkGet]⟩
  | l :: rest, nd, acc, h => by
    by_cases hns : nd.hasNS
    · simp [walkApply, hns] at h
    · cases hf : nd.children.find l with
      | some c =>
        simp only [walkApply, hns, if_false, hf, Bool.false_eq_true] at h ⊢
        obtain ⟨tg, tg', hftg, hget⟩ := walkApply_ok f rest c (l :: acc) h
        refine ⟨tg, tg', hftg, ?_⟩
        simp only [walkGet, Node.hasNS_mk_pay, hns, if_false, Node.children_mk,
          Children.find_set_self, Bool.false_eq_true]
        exact hget
      | none =>
        simp only [walkApply, hns, if_false, hf, Bool.false_eq_true] at h ⊢
        obtain ⟨tg, tg', hftg, hget⟩ :=
          walkApply_ok f rest (newNode (madeFqdn l acc)) (l :: acc) h
        refine ⟨tg, tg', hftg, ?_⟩
        simp only [walkGet, Node.hasNS_mk_pay, hns, if_false, Node.children_mk,
          Children.find_set_self, Bool.false_eq_true]
        exact hget

/-- A walk whose path must pass through an existing node that holds NS
fails "FQDN outside authority" and returns the tree unchanged. -/
theorem walkApply_ns_blocked (f : Node → Node × GoRes) :
    ∀ (p : List String) (nd tg : Node) (l : String) (rest acc : List String),
      walkGet nd p = .ok tg → tg.hasNS = true →
      walkApply f nd (p ++ l :: rest) acc = (nd, .err "FQDN outside authority")
  | [], nd, tg, l, rest, acc, h, hns => by
    simp only [walkGet] at h
    cases h
    simp [walkApply, hns]
  | k :: p', nd, tg, l, rest, acc, h, hns => by
    simp only [walkGet] at h
    by_cases hk : nd.hasNS
    · simp [hk] at h
    · simp only [hk, if_false, Bool.false_eq_true] at h
      cases hf : nd.children.find k with
      | none => rw [hf] at h; cases h
      | some c =>
        rw [hf] at h
        have ih := walkApply_ns_blocked f p' c tg l rest (k :: acc) h hns
        simp only [List.cons_append, walkApply, hk, if_false, hf,
          Bool.false_eq_true, List.append_eq, ih]
        rw [Children.set_find_eq nd.children k c hf, Node.eta]

/-- The read-only walk also fails "FQDN outside authority" when its path
must descend below an existing node that holds NS. -/
theorem walkGet_ns_blocked :
    ∀ (p : List String) (nd tg : Node) (l : String) (rest : List String),
      walkGet nd p = .ok tg → tg.hasNS = true →
      walkGet nd (p ++ l :: rest) = .error "FQDN outside authority"
  | [], nd, tg, l, rest, h, hns => by
    simp only [walkGet] at h
    cases h
    simp [walkGet, hns]
  | k :: p', nd, tg, l, rest, h, hns => by
    simp only [walkGet] at h
    by_cases hk : nd.hasNS
    · simp [hk] at h
    · simp only [hk, if_false, Bool.false_eq_true] at h
      cases hf : nd.children.find k with
      | none => rw [hf] at h; cases h
      | some c =>
        rw [hf] at h
        have ih := walkGet_ns_blocked p' c tg l rest h hns
        simp only [List.cons_append, walkGet, hk, if_false, hf,
          Bool.false_eq_true, List.append_eq, ih]

/-- Frame property of the mutating walk: when the node-level body leaves a
failed node untouched, a failed walk leaves every pre-existing node's
payload untouched — only fresh (empty) path nodes can appear. -/
theorem walkApply_frame (f : Node → Node × GoRes)
    (hf : ∀ t, (f t).2 ≠ .ok → (f t).1 = t) :
    ∀ (ls : List String) (nd : Node) (acc : List String),
      (walkApply f nd ls acc).2 ≠ .ok →
      ∀ (p : List String) (n : Node), nodeAt nd p = some n →
        ∃ n', nodeAt (walkApply f nd ls acc).1 p = some n' ∧ n'.pay = n.pay
  | [], nd, acc, h, p, n, hp => by
    simp only [walkApply] at h ⊢
    rw [hf nd h]
    exact ⟨n, hp, rfl⟩
  | l :: rest, nd, acc, h, p, n, hp => by
    by_cases hns : nd.hasNS
    · simp only [walkApply, hns, if_true] at h ⊢
      exact ⟨n, hp, rfl⟩
    · cases hfind : nd.children.find l with
      | some c =>
        simp only [walkApply, hns, if_false, hfind, Bool.false_eq_true] at h ⊢
        cases p with
        | nil =>
          simp only [nodeAt] at hp
          cases hp
          exact ⟨_, rfl, rfl⟩
        | cons k p' =>
          simp only [nodeAt, Node.children_mk] at hp ⊢
          by_cases hk : k = l
          · subst hk
            rw [hfind] at hp
            rw [Children.find_set_self]
            exact walkApply_frame f hf rest c (k :: acc) h p' n hp
          · rw [Children.find_set_ne nd.children l k _ hk]
            exact ⟨n, hp, rfl⟩
      | none =>
        simp only [walkApply, hns, if_false, hfind, Bool.false_eq_true] at h ⊢
        cases p with
        | nil =>
          simp only [nodeAt] at hp
          cases hp
          exact ⟨_, rfl, rfl⟩
        | cons k p' =>
          simp only [nodeAt, Node.children_mk] at hp ⊢
          by_cases hk : k = l
          · subst hk
            rw [hfind] at hp
            cases hp
          · rw [Children.find_set_ne nd.children l k _ hk]
            exact ⟨n, hp, rfl⟩

/-- An SPF1 string is never also a DKIM1 string: the two lower-cased
markers differ at their third character. -/
theorem isSPF1_isDKIM1_exclusive (s : String) :
    isSPF1 s = true → isDKIM1 s = true → False := by
  unfold isSPF1 isDKIM1 strStarts
  have hs : "v=spf1 ".toList = ['v', '=', 's', 'p', 'f', '1', ' '] := rfl
  have hs2 : "v=spf1;".toList = ['v', '=', 's', 'p', 'f', '1', ';'] := rfl
  have hd : "v=dkim1 ".toList = ['v', '=', 'd', 'k', 'i', 'm', '1', ' '] := rfl
  have hd2 : "v=dkim1;".toList = ['v', '=', 'd', 'k', 'i', 'm', '1', ';'] := rfl
  rw [hs, hs2, hd, hd2]
  cases hcs : (lowerStr s).toList with
  | nil => simp [listStarts]
  | cons a tl =>
    cases tl with
    | nil => simp [listStarts]
    | cons b tl2 =>
      cases tl2 with
      | nil => simp [listStarts]
      | cons c tl3 =>
        simp only [listStarts, Bool.and_eq_true, beq_iff_eq, Bool.or_eq_true]
        rintro (⟨rfl, rfl, rfl, -⟩ | ⟨rfl, rfl, rfl, -⟩) <;>
          rintro (⟨-, -, hc, -⟩ | ⟨-, -, hc, -⟩) <;> cases hc

/-- Every error branch of the `AddTXT` body returns the node unchanged
(the in-place SPF-flag write in the Go code cannot be followed by the DKIM
error because no string carries both markers). -/
theorem txtAdder_err_id (ttl : Int) (rdata : String) (nd : Node) :
    (txtAdder ttl rdata nd).2 ≠ .ok → (txtAdder ttl rdata nd).1 = nd := by
  unfold txtAdder
  split
  · intro _; rfl
  · split
    · intro _; rfl
    · split
      · intro _; rfl
      · split
        · intro _; rfl
        · split
          · intro _; rfl
          · split
            · intro _; rfl
            · split
              · intro _; rfl
              · by_cases hsp : isSPF1 rdata
                · by_cases hdk : isDKIM1 rdata
                  · exact (isSPF1_isDKIM1_exclusive rdata hsp hdk).elim
                  · simp only [hsp, hdk, eq_self_iff_true, if_true, Bool.false_and,
                      Bool.false_eq_true, if_false]
                    intro h; exact absurd rfl h
                · simp only [hsp, Bool.false_eq_true, if_false]
                  split
                  · intro _; rfl
                  · intro h; exact absurd rfl h

/-- Every non-success branch of the `SetNS` body returns the node
unchanged. -/
theorem nsSetter_err_id (ttl : Int) (rdatas : List String) (nd : Node) :
    (nsSetter ttl rdatas nd).2 ≠ .ok → (nsSetter ttl rdatas nd).1 = nd := by
  unfold nsSetter
  split
  · intro _; rfl
  · split
    · intro _; rfl
    · split
      · intro _; rfl
      · split
        · intro _; rfl
        · split
          · intro _; rfl
          · split
            · intro _; rfl
            · intro h; exact absurd rfl h

/-- Every non-success branch of the `SetMX` body (error or panic) returns
the node unchanged. -/
theorem mxSetter_err_id (ttl : Int) (rdatas : List String) (nd : Node) :
    (mxSetter ttl rdatas nd).2 ≠ .ok → (mxSetter ttl rdatas nd).1 = nd := by
  unfold mxSetter
  split
  · intro _; rfl
  · split
    · intro _; rfl
    · split
      · intro _; rfl
      · split
        · intro _; rfl
        · intro _; rfl
        · split
          · intro _; rfl
          · intro h; exact absurd rfl h

/-- Every non-success branch of the `SetCNAME` body returns the node
unchanged. -/
theorem cnameSetter_err_id (ttl : Int) (rdata : String) (nd : Node) :
    (cnameSetter ttl rdata nd).2 ≠ .ok → (cnameSetter ttl rdata nd).1 = nd := by
  unfold cnameSetter
  split
  · intro _; rfl
  · split
    · intro _; rfl
    · split
      · intro _; rfl
      · split
        · intro _; rfl
        · intro h; exact absurd rfl h

/-- Every non-success branch of the `SetA` body returns the node
unchanged. -/
theorem aSetter_err_id (ttl : Int) (rdatas : List String) (nd : Node) :
    (aSetter ttl rdatas nd).2 ≠ .ok → (aSetter ttl rdatas nd).1 = nd := by
  unfold aSetter
  split
  · intro _; rfl
  · split
    · intro _; rfl
    · split
      · intro _; rfl
      · split
        · intro _; rfl
        · split
          · intro _; rfl
          · intro h; exact absurd rfl h

/-- Every non-success branch of the `SetAAAA` body returns the node
unchanged. -/
theorem aaaaSetter_err_id (ttl : Int) (rdatas : List String) (nd : Node) :
    (aaaaSetter ttl rdatas nd).2 ≠ .ok → (aaaaSetter ttl rdatas nd).1 = nd := by
  unfold aaaaSetter
  split
  · intro _; rfl
  · split
    · intro _; rfl
    · split
      · intro _; rfl
      · split
        · intro _; rfl
        · split
          · intro _; rfl
          · intro h; exact absurd rfl h

/-! ### What a successful setter body implies -/

/-- Characterization of a successful `SetNS` body: all checks passed and
only the NS payload was written. -/
theorem nsSetter_ok {ttl : Int} {rdatas : List String} {nd nd' : Node}
    (h : nsSetter ttl rdatas nd = (nd', .ok)) :
    IsValidTTL ttl = true ∧ rdatas ≠ [] ∧ nd.hasNS = false ∧
    nd.hasRecords = false ∧ nd.hasChildren = false ∧
    nd' = nd.withPay { nd.pay with nsTTL := ttl, nsRDatas := rdatas } := by
  unfold nsSetter at h
  split at h
  · simp at h
  rename_i h1
  split at h
  · simp at h
  rename_i h2
  split at h
  · simp at h
  rename_i h3
  split at h
  · simp at h
  split at h
  · simp at h
  rename_i h4
  split at h
  · simp at h
  rename_i h5
  refine ⟨by simpa using h1, by simpa using h2, by simpa using h3,
    by simpa using h4, by simpa using h5, ?_⟩
  rw [Prod.mk.injEq] at h
  exact h.1.symm

/-- Characterization of a successful `SetMX` body. -/
theorem mxSetter_ok {ttl : Int} {rdatas : List String} {nd nd' : Node}
    (h : mxSetter ttl rdatas nd = (nd', .ok)) :
    IsValidTTL ttl = true ∧ rdatas ≠ [] ∧ nd.hasMX = false ∧
    nd.hasNS = false ∧ nd.hasCNAME = false ∧
    nd' = nd.withPay { nd.pay with mxTTL := ttl, mxRDatas := rdatas } := by
  unfold mxSetter at h
  split at h
  · simp at h
  rename_i h1
  split at h
  · simp at h
  rename_i h2
  split at h
  · simp at h
  rename_i h3
  split at h
  · simp at h
  · simp at h
  · rename_i h4
    split at h
    · simp at h
    rename_i h5
    refine ⟨by simpa using h1, by simpa using h2, by simpa using h3, ?_, ?_, ?_⟩
    · rcases (by simpa using h5 : ¬(nd.hasNS = true ∨ nd.hasCNAME = true)) with h5'
      simp [not_or] at h5'
      exact h5'.1
    · rcases (by simpa using h5 : ¬(nd.hasNS = true ∨ nd.hasCNAME = true)) with h5'
      simp [not_or] at h5'
      exact h5'.2
    · rw [Prod.mk.injEq] at h
      exact h.1.symm

/-- Characterization of a successful `AddTXT` body: all checks passed, the
string was appended, the TTL overwritten, and the SPF/DKIM marker flags
absorbed the new string's markers. -/
theorem txtAdder_ok {ttl : Int} {rdata : String} {nd nd' : Node}
    (h : txtAdder ttl rdata nd = (nd', .ok)) :
    IsValidTTL ttl = true ∧ (nd.pay.txtTTL = 0 ∨ ttl = nd.pay.txtTTL) ∧
    byteLen rdata ≠ 0 ∧ byteLen rdata ≤ 255 ∧
    nd.pay.txtRDatas.contains rdata = false ∧
    nd.hasNS = false ∧ nd.hasCNAME = false ∧
    nd' = nd.withPay { nd.pay with
      txtSPF1 := nd.pay.txtSPF1 || isSPF1 rdata,
      txtDKIM1 := nd.pay.txtDKIM1 || isDKIM1 rdata,
      txtTTL := ttl,
      txtRDatas := nd.pay.txtRDatas ++ [rdata] } := by
  unfold txtAdder at h
  split at h
  · simp at h
  rename_i h1
  split at h
  · simp at h
  rename_i h2
  split at h
  · simp at h
  rename_i h3
  split at h
  · simp at h
  rename_i h4
  split at h
  · simp at h
  rename_i h5
  split at h
  · simp at h
  rename_i h6
  split at h
  · simp at h
  rename_i h7
  have hns : nd.hasNS = false ∧ nd.hasCNAME = false := by
    have := (by simpa using h6 : ¬(nd.hasNS = true ∨ nd.hasCNAME = true))
    simp [not_or] at this
    exact this
  refine ⟨by simpa using h1, ?_, by simpa using h3, by omega, by simpa using h5,
    hns.1, hns.2, ?_⟩
  · rcases (by simpa using h2 :
      ¬(nd.pay.txtTTL ≠ 0 ∧ ttl ≠ nd.pay.txtTTL)) with h2'
    by_cases hz : nd.pay.txtTTL = 0
    · exact Or.inl hz
    · right
      by_contra hne
      exact h2' ⟨hz, hne⟩
  · by_cases hsp : isSPF1 rdata
    · by_cases hdk : isDKIM1 rdata
      · exact (isSPF1_isDKIM1_exclusive rdata hsp hdk).elim
      · simp only [hsp, hdk, eq_self_iff_true, if_true, Bool.false_and,
          Bool.false_eq_true, if_false] at h
        rw [Prod.mk.injEq] at h
        rw [← h.1]
        simp [Node.withPay, Node.pay_mk, hsp, hdk]
    · by_cases hdk : isDKIM1 rdata
      · simp only [hsp, hdk, Bool.false_eq_true, if_false, eq_self_iff_true,
          if_true, Bool.true_and] at h
        split at h
        · simp at h
        rename_i h8
        rw [Prod.mk.injEq] at h
        rw [← h.1]
        simp only [Bool.not_eq_true] at h8
        simp [Node.withPay, Node.pay_mk, hsp, hdk, h8]
      · simp only [hsp, hdk, Bool.false_eq_true, if_false, Bool.false_and] at h
        rw [Prod.mk.injEq] at h
        rw [← h.1]
        simp [Node.withPay, Node.pay_mk, hsp, hdk]

/-- Characterization of a successful `SetCNAME` body. -/
theorem cnameSetter_ok {ttl : Int} {rdata : String} {nd nd' : Node}
    (h : cnameSetter ttl rdata nd = (nd', .ok)) :
    IsValidTTL ttl = true ∧ nd.hasCNAME = false ∧ IsValidFQDN rdata = true ∧
    nd.hasRecords = false ∧
    nd' = nd.withPay { nd.pay with cnameTTL := ttl, cnameRdata := rdata } := by
  unfold cnameSetter at h
  split at h
  · simp at h
  rename_i h1
  split at h
  · simp at h
  rename_i h2
  split at h
  · simp at h
  rename_i h3
  split at h
  · simp at h
  rename_i h4
  refine ⟨by simpa using h1, by simpa using h2, by simpa using h3,
    by simpa using h4, ?_⟩
  rw [Prod.mk.injEq] at h
  exact h.1.symm

/-- Characterization of a successful `SetA` body. -/
theorem aSetter_ok {ttl : Int} {rdatas : List String} {nd nd' : Node}
    (h : aSetter ttl rdatas nd = (nd', .ok)) :
    IsValidTTL ttl = true ∧ rdatas ≠ [] ∧ nd.hasA = false ∧
    nd.hasNS = false ∧ nd.hasCNAME = false ∧
    nd' = nd.withPay { nd.pay with aTTL := ttl, aRDatas := rdatas } := by
  unfold aSetter at h
  split at h
  · simp at h
  rename_i h1
  split at h
  · simp at h
  rename_i h2
  split at h
  · simp at h
  rename_i h3
  split at h
  · simp at h
  split at h
  · simp at h
  rename_i h5
  have hns : nd.hasNS = false ∧ nd.hasCNAME = false := by
    have := (by simpa using h5 : ¬(nd.hasNS = true ∨ nd.hasCNAME = true))
    simp [not_or] at this
    exact this
  refine ⟨by simpa using h1, by simpa using h2, by simpa using h3,
    hns.1, hns.2, ?_⟩
  rw [Prod.mk.injEq] at h
  exact h.1.symm

/-- Characterization of a successful `SetAAAA` body. -/
theorem aaaaSetter_ok {ttl : Int} {rdatas : List String} {nd nd' : Node}
    (h : aaaaSetter ttl rdatas nd = (nd', .ok)) :
    IsValidTTL ttl = true ∧ rdatas ≠ [] ∧ nd.hasAAAA = false ∧
    nd.hasNS = false ∧ nd.hasCNAME = false ∧
    nd' = nd.withPay { nd.pay with aaaaTTL := ttl, aaaaRDatas := rdatas } := by
  unfold aaaaSetter at h
  split at h
  · simp at h
  rename_i h1
  split at h
  · simp at h
  rename_i h2
  split at h
  · simp at h
  rename_i h3
  split at h
  · simp at h
  split at h
  · simp at h
  rename_i h5
  have hns : nd.hasNS = false ∧ nd.hasCNAME = false := by
    have := (by simpa using h5 : ¬(nd.hasNS = true ∨ nd.hasCNAME = true))
    simp [not_or] at this
    exact this
  refine ⟨by simpa using h1, by simpa using h2, by simpa using h3,
    hns.1, hns.2, ?_⟩
  rw [Prod.mk.injEq] at h
  exact h.1.symm

/-! ### Arbitrary call sequences -/

/-- One mutating store call with its arguments. -/
inductive Op where
  | opSetNS (fqdn : String) (ttl : Int) (rdatas : List String)
  | opSetMX (fqdn : String) (ttl : Int) (rdatas : List String)
  | opAddTXT (fqdn : String) (ttl : Int) (rdata : String)
  | opSetCNAME (fqdn : String) (ttl : Int) (rdata : String)
  | opSetA (fqdn : String) (ttl : Int) (rdatas : List String)
  | opSetAAAA (fqdn : String) (ttl : Int) (rdatas : List String)
deriving DecidableEq, Repr

/-- Run one call against the store. -/
def Op.run (op : Op) (db : RRDB) : RRDB × GoRes :=
  match op with
  | .opSetNS f t r => db.SetNS f t r
  | .opSetMX f t r => db.SetMX f t r
  | .opAddTXT f t r => db.AddTXT f t r
  | .opSetCNAME f t r => db.SetCNAME f t r
  | .opSetA f t r => db.SetA f t r
  | .opSetAAAA f t r => db.SetAAAA f t r

/-- Run a sequence of calls, keeping the store of every call (the Go store
is mutated in place whether or not a call reports an error). -/
def runOps (db : RRDB) : List Op → RRDB
  | [] => db
  | op :: ops => runOps (op.run db).1 ops

/-- Top-level version of the frame lemma: a store call that does not
succeed leaves every pre-existing node's payload unchanged. -/
theorem apply_frame (db : RRDB) (fqdn : String) (f : Node → Node × GoRes)
    (hf : ∀ t, (f t).2 ≠ .ok → (f t).1 = t)
    (h : (db.apply fqdn f).2 ≠ .ok) :
    ∀ p n, nodeAt db.root p = some n →
      ∃ n', nodeAt (db.apply fqdn f).1.root p = some n' ∧ n'.pay = n.pay := by
  by_cases hv : IsValidFQDN fqdn
  · simp only [RRDB.apply, hv, Bool.not_true, Bool.false_eq_true, if_false] at h ⊢
    exact fun p n hp => walkApply_frame f hf (revLabels fqdn) db.root [] h p n hp
  · simp only [RRDB.apply, Bool.not_eq_true', eq_self_iff_true] at h ⊢
    rw [if_pos (by simpa using hv)] at h ⊢
    exact fun p n hp => ⟨n, hp, rfl⟩

/-- A successful store call passed FQDN validation, succeeded on some
target node, and reading the path back afterwards yields the body's
output node. -/
theorem apply_ok {db db1 : RRDB} {fqdn : String} {f : Node → Node × GoRes}
    (h : db.apply fqdn f = (db1, .ok)) :
    IsValidFQDN fqdn = true ∧
    ∃ tg tg', f tg = (tg', .ok) ∧ walkGet db1.root (revLabels fqdn) = .ok tg' := by
  by_cases hv : IsValidFQDN fqdn
  · refine ⟨hv, ?_⟩
    simp only [RRDB.apply, hv, Bool.not_true, Bool.false_eq_true, if_false] at h
    rw [Prod.mk.injEq] at h
    obtain ⟨h1, h2⟩ := h
    obtain ⟨tg, tg', hf, hg⟩ := walkApply_ok f (revLabels fqdn) db.root [] h2
    refine ⟨tg, tg', hf, ?_⟩
    have : db1.root = (walkApply f db.root (revLabels fqdn) []).1 := by rw [← h1]
    rw [this]
    exact hg
  · rw [RRDB.apply, if_pos (by simpa using hv)] at h
    simp at h

/-- A store call on an FQDN whose node already exists has the outcome of
the node-level body at that node. -/
theorem apply_get {db : RRDB} {fqdn : String} (f : Node → Node × GoRes) {tg : Node}
    (hv : IsValidFQDN fqdn = true)
    (hg : walkGet db.root (revLabels fqdn) = .ok tg) :
    (db.apply fqdn f).2 = (f tg).2 := by
  simp only [RRDB.apply, hv, Bool.not_true, Bool.false_eq_true, if_false]
  exact (walkApply_get f (revLabels fqdn) db.root tg [] hg).1

/-- Companion to `apply_get`: reading the path back after the call yields
the node the body produced. -/
theorem apply_get_root {db : RRDB} {fqdn : String} (f : Node → Node × GoRes) {tg : Node}
    (hv : IsValidFQDN fqdn = true)
    (hg : walkGet db.root (revLabels fqdn) = .ok tg) :
    walkGet (db.apply fqdn f).1.root (revLabels fqdn) = .ok (f tg).1 := by
  simp only [RRDB.apply, hv, Bool.not_true, Bool.false_eq_true, if_false]
  exact (walkApply_get f (revLabels fqdn) db.root tg [] hg).2

/-- `RRDB.node` on an existing path is the read-only walk. -/
theorem node_get {db : RRDB} {fqdn : String} {tg : Node}
    (hv : IsValidFQDN fqdn = true)
    (hg : walkGet db.root (revLabels fqdn) = .ok tg) :
    db.node fqdn = .ok tg := by
  simp only [RRDB.node, hv, Bool.not_true, Bool.false_eq_true, if_false, hg]

/-! ### Claim C8 -/

/-- C8: for every replayed Name under a zone `z`, the FQDN it is applied
to (`lib.MakeFQDN(name, z)`, used by `loadNames` for every block) equals
`z` itself when the name is `"@"`, the name verbatim when it already ends
in a dot, and `name + "." + z` otherwise. -/
theorem C8_makeFQDN (name zone : String) :
    (name = "@" → MakeFQDN name zone = zone) ∧
    (name ≠ "@" → strEnds name "." = true → MakeFQDN name zone = name) ∧
    (name ≠ "@" → strEnds name "." = false →
      MakeFQDN name zone = name ++ "." ++ zone) := by
  unfold MakeFQDN
  refine ⟨fun h => by simp [h], fun h he => by simp [h, he], fun h he => by simp [h, he]⟩

/-- Witness for C8 at the spec's own examples. -/
theorem C8_makeFQDN_witness :
    MakeFQDN "@" "example.com." = "example.com." ∧
    MakeFQDN "www.other.org." "example.com." = "www.other.org." ∧
    MakeFQDN "sub" "example.com." = "sub.example.com." :=
  ⟨(C8_makeFQDN "@" "example.com.").1 rfl,
   (C8_makeFQDN "www.other.org." "example.com.").2.1 (by decide) (by decide),
   (C8_makeFQDN "sub" "example.com.").2.2 (by decide) (by decide)⟩

/-! ### Claim C3 -/

/-- C3 (code bug): `SetMX` does reject a space-free rdata whose whole text
fails integer parsing ("foo", "") with an invalid-preference error, but a
space-free rdata that parses as an integer ("10") drives `mxLine[1]` out
of range — a runtime panic, not a typed error; the literal null-MX "0 ."
is accepted.  This refutes "SetMX ... returns either success or a
synchronous typed error" for every rdatas list. -/
theorem C3_setMX_crash :
    (RRDB.new.SetMX "foo.test." 300 ["10"]).2 =
      .panic "runtime error: index out of range" ∧
    (RRDB.new.SetMX "foo.test." 300 ["foo"]).2 =
      .err "rdata: invalid preference: foo" ∧
    (RRDB.new.SetMX "foo.test." 300 [""]).2 =
      .err "rdata: invalid preference: " ∧
    (RRDB.new.SetMX "foo.test." 300 ["0 ."]).2 = .ok := by decide

/-! ### Claim C1 -/

/-- C1 counterexample: a `SetA` with an invalid TTL on a fresh FQDN is
rejected, yet it creates the path nodes: before the call `Records` fails
"FQDN not found", afterwards it no longer does (it returns an empty
list), contradicting "a subsequent Records/getter call on that FQDN still
fails NotFound exactly as before the rejected call". -/
theorem C1_counterexample :
    (RRDB.new.SetA "foo.test." (-1) ["192.0.2.1"]).2 = .err "invalid TTL: -1" ∧
    RRDB.new.Records "foo.test." 300 = .error "FQDN not found" ∧
    ¬((RRDB.new.SetA "foo.test." (-1) ["192.0.2.1"]).1.Records "foo.test." 300 =
      .error "FQDN not found") := by decide

/-- C1 (amended): a store call that does not succeed never changes the
payload of any node that already existed, but the empty nodes created
while walking the path persist: after a rejected `SetA` with an invalid
TTL on a fresh FQDN the path nodes exist with no payloads, so `Records`
returns an empty list (and the `A` getter reports "no A record") instead
of NotFound. -/
theorem C1_rejected_calls_preserve_payloads :
    (∀ (db : RRDB) (op : Op), (op.run db).2 ≠ .ok →
       ∀ p n, nodeAt db.root p = some n →
         ∃ n', nodeAt (op.run db).1.root p = some n' ∧ n'.pay = n.pay) ∧
    ((RRDB.new.SetA "foo.test." (-1) ["192.0.2.1"]).1.Records "foo.test." 300 =
      .ok []) ∧
    ((RRDB.new.SetA "foo.test." (-1) ["192.0.2.1"]).1.A "foo.test." 300 =
      .error "FQDN has no A record") := by
  refine ⟨?_, by decide, by decide⟩
  intro db op h
  cases op with
  | opSetNS f t r =>
    exact apply_frame db f _ (fun t' ht' => nsSetter_err_id t r t' ht') h
  | opSetMX f t r =>
    exact apply_frame db f _ (fun t' ht' => mxSetter_err_id t r t' ht') h
  | opAddTXT f t r =>
    exact apply_frame db f _ (fun t' ht' => txtAdder_err_id t r t' ht') h
  | opSetCNAME f t r =>
    exact apply_frame db f _ (fun t' ht' => cnameSetter_err_id t r t' ht') h
  | opSetA f t r =>
    exact apply_frame db f _ (fun t' ht' => aSetter_err_id t r t' ht') h
  | opSetAAAA f t r =>
    exact apply_frame db f _ (fun t' ht' => aaaaSetter_err_id t r t' ht') h

/-- Witness for C1: a rejected duplicate `SetA` leaves the payload of the
pre-existing node "a.test." intact. -/
theorem C1_witness :
    ∃ n', nodeAt ((Op.opSetA "a.test." 300 ["192.0.2.9"]).run
        (RRDB.new.SetA "a.test." 300 ["192.0.2.1"]).1).1.root ["test", "a"] = some n' ∧
      n'.pay =
        (Node.mk { fqdn := "a.test.", aRDatas := ["192.0.2.1"], aTTL := 300 } .nil).pay :=
  C1_rejected_calls_preserve_payloads.1 _ _ (by decide) ["test", "a"]
    (Node.mk { fqdn := "a.test.", aRDatas := ["192.0.2.1"], aTTL := 300 } .nil) (by decide)

/-! ### Claim C2 -/

/-- C2 counterexample: after a successful `AddTXT` with non-zero TTL 300,
an `AddTXT` with TTL 0 and fresh valid rdata fails "TTL already set" — it
is not silently accepted as the claim states. -/
theorem C2_counterexample :
    (RRDB.new.AddTXT "foo.test." 300 "hello").2 = .ok ∧
    ((RRDB.new.AddTXT "foo.test." 300 "hello").1.AddTXT "foo.test." 0 "fresh").2 =
      .err "TTL already set" := by decide

/-- C2 (amended): once a node's TXT set carries a non-zero TTL `t0`, a
later `AddTXT` on the same FQDN with any valid TTL different from `t0` —
zero included — fails "TTL already set"; only TTL exactly `t0` is
accepted (and succeeds for fresh valid rdata).  The asymmetry runs the
other way round from the claim: it is a non-zero TTL after a history of
zero TTLs that is silently accepted (see C10). -/
theorem C2_amended (db db1 : RRDB) (f : String) (t0 : Int) (r0 : String)
    (hok : db.AddTXT f t0 r0 = (db1, .ok)) (ht0 : t0 ≠ 0) :
    (∀ t1 r1, IsValidTTL t1 = true → t1 ≠ t0 →
      (db1.AddTXT f t1 r1).2 = .err "TTL already set") ∧
    (∀ r1, byteLen r1 ≠ 0 → byteLen r1 ≤ 255 →
      (∀ n1, walkGet db1.root (revLabels f) = .ok n1 →
        n1.pay.txtRDatas.contains r1 = false) →
      isSPF1 r1 = false → isDKIM1 r1 = false →
      (db1.AddTXT f t0 r1).2 = .ok) := by
  obtain ⟨hv, tg, tg', hbody, hget⟩ := apply_ok hok
  obtain ⟨hvt, -, -, -, -, hns, hcn, hshape⟩ := txtAdder_ok hbody
  have httl : tg'.pay.txtTTL = t0 := by rw [hshape]; simp [Node.withPay]
  have hns' : tg'.hasNS = false := by
    rw [hshape]; simpa [Node.withPay, Node.hasNS] using hns
  have hcn' : tg'.hasCNAME = false := by
    rw [hshape]; simpa [Node.withPay, Node.hasCNAME] using hcn
  constructor
  · intro t1 r1 hvt1 hne
    rw [RRDB.AddTXT, apply_get (txtAdder t1 r1) hv hget]
    unfold txtAdder
    rw [hvt1]
    simp only [Bool.not_true, Bool.false_eq_true, if_false]
    rw [httl]
    have hc : (decide (t0 ≠ 0) && decide (t1 ≠ t0)) = true := by
      rw [decide_eq_true ht0, decide_eq_true hne]; rfl
    rw [if_pos hc]
  · intro r1 hb0 hb255 hfresh hsp hdk
    have hcontains : tg'.pay.txtRDatas.contains r1 = false := hfresh tg' hget
    rw [RRDB.AddTXT, apply_get (txtAdder t0 r1) hv hget]
    unfold txtAdder
    rw [hvt]
    simp only [Bool.not_true, Bool.false_eq_true, if_false]
    rw [httl]
    have hc2 : ¬((decide (t0 ≠ 0) && decide (t0 ≠ t0)) = true) := by simp
    rw [if_neg hc2, if_neg hb0, if_neg (by omega : ¬byteLen r1 > 255)]
    simp only [hcontains, hns', hcn', hsp, hdk, Bool.false_and, Bool.or_self,
      Bool.false_eq_true, if_false]

/-- Witness for C2 at concrete inputs. -/
theorem C2_witness :
    ((RRDB.new.AddTXT "foo.test." 300 "hello").1.AddTXT "foo.test." 0 "fresh").2 =
      .err "TTL already set" :=
  (C2_amended RRDB.new (RRDB.new.AddTXT "foo.test." 300 "hello").1 "foo.test." 300 "hello"
    (by decide) (by decide)).1 0 "fresh" (by decide) (by decide)

/-! ### Claim C6 -/

/-- C6: for every FQDN `f`, TTL `t` and rdata list on which
`SetNS(f, t, rdatas)` succeeded (success implies `f` is a valid FQDN and
`t ∈ [0, 2³¹−1]`), `NS(f, d)` for any default TTL `d` returns a record
whose TTL equals `t` when `t ≠ 0` and `d` otherwise, and whose RDatas
equal the input list in the same order. -/
theorem C6_setNS_then_NS (db db1 : RRDB) (f : String) (t d : Int)
    (rdatas : List String) (hok : db.SetNS f t rdatas = (db1, .ok)) :
    IsValidFQDN f = true ∧ IsValidTTL t = true ∧
    ∃ rec, db1.NS f d = .ok rec ∧
      rec.TTL = (if t ≠ 0 then t else d) ∧ rec.RDatas = rdatas := by
  obtain ⟨hv, tg, tg', hbody, hget⟩ := apply_ok hok
  obtain ⟨hvt, hne, -, -, -, hshape⟩ := nsSetter_ok hbody
  have hrd : tg'.pay.nsRDatas = rdatas := by rw [hshape]; simp [Node.withPay]
  have httl : tg'.pay.nsTTL = t := by rw [hshape]; simp [Node.withPay]
  have hhas : tg'.hasNS = true := by
    rw [Node.hasNS, hrd]
    simp [hne]
  refine ⟨hv, hvt, ⟨tg'.pay.fqdn, "NS",
    if tg'.pay.nsTTL ≠ 0 then tg'.pay.nsTTL else d, tg'.pay.nsRDatas⟩, ?_, ?_, ?_⟩
  · rw [RRDB.NS, node_get hv hget]
    simp [Except.bind, Node.ns, hhas]
  · rw [httl]
  · exact hrd

/-- Witness for C6 at concrete inputs. -/
theorem C6_witness :
    IsValidFQDN "foo.test." = true ∧ IsValidTTL 300 = true ∧
    ∃ rec, (RRDB.new.SetNS "foo.test." 300 ["ns1.example.com."]).1.NS "foo.test." 600 =
        .ok rec ∧
      rec.TTL = (if (300 : Int) ≠ 0 then 300 else 600) ∧
      rec.RDatas = ["ns1.example.com."] :=
  C6_setNS_then_NS RRDB.new (RRDB.new.SetNS "foo.test." 300 ["ns1.example.com."]).1
    "foo.test." 300 600 ["ns1.example.com."] (by decide)

/-! ### Claim C9 -/

/-- C9: after a successful Set of one of NS/MX/CNAME/A/AAAA at an FQDN, a
second Set of the same type at the same FQDN fails with that type's
"already set" error regardless of the new payload (the second call only
needs a valid TTL and, for the list-valued types, a nonempty rdata list —
both checked before the already-set test); in contrast `AddTXT` with
rdata identical to an already stored TXT string fails with a
duplicate-rdata error, while `AddTXT` with fresh valid rdata and the same
TTL accumulates: the new string is appended to the node's TXT set. -/
theorem C9_second_set_rejected :
    (∀ (db db1 : RRDB) (f : String) (t : Int) (r : List String) (t' : Int)
        (r' : List String), db.SetNS f t r = (db1, .ok) →
      IsValidTTL t' = true → r' ≠ [] →
      (db1.SetNS f t' r').2 = .err "NS record already set") ∧
    (∀ (db db1 : RRDB) (f : String) (t : Int) (r : List String) (t' : Int)
        (r' : List String), db.SetMX f t r = (db1, .ok) →
      IsValidTTL t' = true → r' ≠ [] →
      (db1.SetMX f t' r').2 = .err "MX record already set") ∧
    (∀ (db db1 : RRDB) (f : String) (t : Int) (r : String) (t' : Int)
        (r' : String), db.SetCNAME f t r = (db1, .ok) →
      IsValidTTL t' = true →
      (db1.SetCNAME f t' r').2 = .err "CNAME record already set") ∧
    (∀ (db db1 : RRDB) (f : String) (t : Int) (r : List String) (t' : Int)
        (r' : List String), db.SetA f t r = (db1, .ok) →
      IsValidTTL t' = true → r' ≠ [] →
      (db1.SetA f t' r').2 = .err "A record already set") ∧
    (∀ (db db1 : RRDB) (f : String) (t : Int) (r : List String) (t' : Int)
        (r' : List String), db.SetAAAA f t r = (db1, .ok) →
      IsValidTTL t' = true → r' ≠ [] →
      (db1.SetAAAA f t' r').2 = .err "AAAA record already set") ∧
    (∀ (db db1 : RRDB) (f : String) (t : Int) (r : String),
      db.AddTXT f t r = (db1, .ok) →
      (db1.AddTXT f t r).2 = .err ("rdata: duplicate entry: " ++ r)) ∧
    (∀ (db db1 : RRDB) (f : String) (t : Int) (r1 r2 : String) (n1 : Node),
      db.AddTXT f t r1 = (db1, .ok) →
      walkGet db1.root (revLabels f) = .ok n1 →
      byteLen r2 ≠ 0 → byteLen r2 ≤ 255 →
      n1.pay.txtRDatas.contains r2 = false →
      isSPF1 r2 = false → isDKIM1 r2 = false →
      (db1.AddTXT f t r2).2 = .ok ∧
      ∃ n2, walkGet (db1.AddTXT f t r2).1.root (revLabels f) = .ok n2 ∧
        n2.pay.txtRDatas = n1.pay.txtRDatas ++ [r2]) := by
  refine ⟨?_, ?_, ?_, ?_, ?_, ?_, ?_⟩
  · -- NS
    intro db db1 f t r t' r' hok hvt' hr'
    obtain ⟨hv, tg, tg', hbody, hget⟩ := apply_ok hok
    obtain ⟨-, hne, -, -, -, hshape⟩ := nsSetter_ok hbody
    have hhas : tg'.hasNS = true := by
      rw [Node.hasNS, hshape]; simp [Node.withPay, hne]
    rw [RRDB.SetNS, apply_get (nsSetter t' r') hv hget]
    unfold nsSetter
    rw [hvt']
    simp only [Bool.not_true, Bool.false_eq_true, if_false]
    rw [if_neg (by simp [hr']), if_pos hhas]
  · -- MX
    intro db db1 f t r t' r' hok hvt' hr'
    obtain ⟨hv, tg, tg', hbody, hget⟩ := apply_ok hok
    obtain ⟨-, hne, -, -, -, hshape⟩ := mxSetter_ok hbody
    have hhas : tg'.hasMX = true := by
      rw [Node.hasMX, hshape]; simp [Node.withPay, hne]
    rw [RRDB.SetMX, apply_get (mxSetter t' r') hv hget]
    unfold mxSetter
    rw [hvt']
    simp only [Bool.not_true, Bool.false_eq_true, if_false]
    rw [if_neg (by simp [hr']), if_pos hhas]
  · -- CNAME
    intro db db1 f t r t' r' hok hvt'
    obtain ⟨hv, tg, tg', hbody, hget⟩ := apply_ok hok
    obtain ⟨-, -, hvfq, -, hshape⟩ := cnameSetter_ok hbody
    have hnel : r.toList ≠ [] := by
      intro hnil
      unfold IsValidFQDN at hvfq
      rw [hnil] at hvfq
      simp at hvfq
    have hb : byteLen r ≠ 0 := byteLen_ne_zero hnel
    have hcr : tg'.pay.cnameRdata = r := by rw [hshape]; simp [Node.withPay]
    have hhas : tg'.hasCNAME = true := by
      rw [Node.hasCNAME, hcr]; exact decide_eq_true hb
    rw [RRDB.SetCNAME, apply_get (cnameSetter t' r') hv hget]
    unfold cnameSetter
    rw [hvt']
    simp only [Bool.not_true, Bool.false_eq_true, if_false]
    rw [if_pos hhas]
  · -- A
    intro db db1 f t r t' r' hok hvt' hr'
    obtain ⟨hv, tg, tg', hbody, hget⟩ := apply_ok hok
    obtain ⟨-, hne, -, -, -, hshape⟩ := aSetter_ok hbody
    have hhas : tg'.hasA = true := by
      rw [Node.hasA, hshape]; simp [Node.withPay, hne]
    rw [RRDB.SetA, apply_get (aSetter t' r') hv hget]
    unfold aSetter
    rw [hvt']
    simp only [Bool.not_true, Bool.false_eq_true, if_false]
    rw [if_neg (by simp [hr']), if_pos hhas]
  · -- AAAA
    intro db db1 f t r t' r' hok hvt' hr'
    obtain ⟨hv, tg, tg', hbody, hget⟩ := apply_ok hok
    obtain ⟨-, hne, -, -, -, hshape⟩ := aaaaSetter_ok hbody
    have hhas : tg'.hasAAAA = true := by
      rw [Node.hasAAAA, hshape]; simp [Node.withPay, hne]
    rw [RRDB.SetAAAA, apply_get (aaaaSetter t' r') hv hget]
    unfold aaaaSetter
    rw [hvt']
    simp only [Bool.not_true, Bool.false_eq_true, if_false]
    rw [if_neg (by simp [hr']), if_pos hhas]
  · -- TXT duplicate
    intro db db1 f t r hok
    obtain ⟨hv, tg, tg', hbody, hget⟩ := apply_ok hok
    obtain ⟨hvt, -, hb0, hb255, -, -, -, hshape⟩ := txtAdder_ok hbody
    have httl : tg'.pay.txtTTL = t := by rw [hshape]; simp [Node.withPay]
    have hmem : tg'.pay.txtRDatas.contains r = true := by
      rw [hshape]; simp [Node.withPay]
    rw [RRDB.AddTXT, apply_get (txtAdder t r) hv hget]
    unfold txtAdder
    rw [hvt]
    simp only [Bool.not_true, Bool.false_eq_true, if_false]
    rw [httl]
    have hc2 : ¬((decide (t ≠ 0) && decide (t ≠ t)) = true) := by simp
    rw [if_neg hc2, if_neg hb0, if_neg (by omega : ¬byteLen r > 255), if_pos hmem]
  · -- TXT accumulate
    intro db db1 f t r1 r2 n1 hok hn1 hb0 hb255 hfresh hsp hdk
    obtain ⟨hv, tg, tg', hbody, hget⟩ := apply_ok hok
    obtain ⟨hvt, -, -, -, -, hns, hcn, hshape⟩ := txtAdder_ok hbody
    have hn1' : n1 = tg' := by
      rw [hget] at hn1
      exact (Except.ok.injEq _ _ ▸ hn1).symm
    subst hn1'
    have httl : n1.pay.txtTTL = t := by rw [hshape]; simp [Node.withPay]
    have hns' : n1.hasNS = false := by
      rw [hshape]; simpa [Node.withPay, Node.hasNS] using hns
    have hcn' : n1.hasCNAME = false := by
      rw [hshape]; simpa [Node.withPay, Node.hasCNAME] using hcn
    have h2 : (txtAdder t r2 n1).2 = .ok := by
      unfold txtAdder
      rw [hvt]
      simp only [Bool.not_true, Bool.false_eq_true, if_false]
      rw [httl]
      have hc2 : ¬((decide (t ≠ 0) && decide (t ≠ t)) = true) := by simp
      rw [if_neg hc2, if_neg hb0, if_neg (by omega : ¬byteLen r2 > 255)]
      simp only [hfresh, hns', hcn', hsp, hdk, Bool.false_and, Bool.or_self,
        Bool.false_eq_true, if_false]
    have heq : txtAdder t r2 n1 = ((txtAdder t r2 n1).1, .ok) := by
      rw [← h2]
    obtain ⟨-, -, -, -, -, -, -, hshape2⟩ := txtAdder_ok heq
    refine ⟨?_, ?_⟩
    · rw [RRDB.AddTXT, apply_get (txtAdder t r2) hv hget]
      exact h2
    · rw [RRDB.AddTXT]
      refine ⟨(txtAdder t r2 n1).1, apply_get_root (txtAdder t r2) hv hget, ?_⟩
      rw [hshape2]
      simp [Node.withPay]

/-- Witness for C9 at concrete inputs (the A part and both TXT parts). -/
theorem C9_witness :
    ((RRDB.new.SetA "foo.test." 300 ["192.0.2.1"]).1.SetA "foo.test." 600
        ["192.0.2.9"]).2 = .err "A record already set" ∧
    ((RRDB.new.AddTXT "foo.test." 300 "hello").1.AddTXT "foo.test." 300 "hello").2 =
      .err "rdata: duplicate entry: hello" ∧
    ((RRDB.new.AddTXT "foo.test." 300 "hello").1.AddTXT "foo.test." 300 "world").2 =
      .ok :=
  ⟨C9_second_set_rejected.2.2.2.1 RRDB.new
      (RRDB.new.SetA "foo.test." 300 ["192.0.2.1"]).1 "foo.test." 300 ["192.0.2.1"]
      600 ["192.0.2.9"] (by decide) (by decide) (by decide),
   C9_second_set_rejected.2.2.2.2.2.1 RRDB.new
      (RRDB.new.AddTXT "foo.test." 300 "hello").1 "foo.test." 300 "hello" (by decide),
   (C9_second_set_rejected.2.2.2.2.2.2 RRDB.new
      (RRDB.new.AddTXT "foo.test." 300 "hello").1 "foo.test." 300 "hello" "world"
      (Node.mk { fqdn := "foo.test.", txtRDatas := ["hello"], txtTTL := 300 } .nil)
      (by decide) (by decide) (by decide) (by decide) (by decide) (by decide)
      (by decide)).1⟩

/-! ### Claim C10 -/

/-- C10: if every previous successful `AddTXT` on a node used TTL 0 (so
the node's single stored TXT TTL is still 0), a later `AddTXT` with any
valid non-zero TTL `t` and fresh valid rdata succeeds and overwrites the
stored TXT TTL with `t`; from then on `TXT(fqdn, d)` reports TTL `t` for
the entire accumulated (quoted) string set, including the strings that
were added under TTL 0. -/
theorem C10_nonzero_ttl_after_zero (db : RRDB) (f : String) (t d : Int) (r : String)
    (n0 : Node)
    (hv : IsValidFQDN f = true)
    (hn0 : walkGet db.root (revLabels f) = .ok n0)
    (hzero : n0.pay.txtTTL = 0)
    (hvt : IsValidTTL t = true) (htnz : t ≠ 0)
    (hb0 : byteLen r ≠ 0) (hb255 : byteLen r ≤ 255)
    (hfresh : n0.pay.txtRDatas.contains r = false)
    (hns : n0.hasNS = false) (hcn : n0.hasCNAME = false)
    (hsp : isSPF1 r = false) (hdk : isDKIM1 r = false) :
    (db.AddTXT f t r).2 = .ok ∧
    ∃ n1, walkGet (db.AddTXT f t r).1.root (revLabels f) = .ok n1 ∧
      n1.pay.txtTTL = t ∧
      n1.pay.txtRDatas = n0.pay.txtRDatas ++ [r] ∧
      ∃ rec, (db.AddTXT f t r).1.TXT f d = .ok rec ∧ rec.TTL = t ∧
        rec.RDatas = (n0.pay.txtRDatas ++ [r]).map goQuote := by
  have h2 : (txtAdder t r n0).2 = .ok := by
    unfold txtAdder
    rw [hvt]
    simp only [Bool.not_true, Bool.false_eq_true, if_false]
    rw [hzero]
    have hc : ¬((decide ((0 : Int) ≠ 0) && decide (t ≠ (0 : Int))) = true) := by simp
    rw [if_neg hc, if_neg hb0, if_neg (by omega : ¬byteLen r > 255)]
    simp only [hfresh, hns, hcn, hsp, hdk, Bool.false_and, Bool.or_self,
      Bool.false_eq_true, if_false]
  have heq : txtAdder t r n0 = ((txtAdder t r n0).1, .ok) := by rw [← h2]
  obtain ⟨-, -, -, -, -, -, -, hshape⟩ := txtAdder_ok heq
  have hgot : walkGet (db.AddTXT f t r).1.root (revLabels f) =
      .ok (txtAdder t r n0).1 := apply_get_root (txtAdder t r) hv hn0
  have httl1 : (txtAdder t r n0).1.pay.txtTTL = t := by
    rw [hshape]; simp [Node.withPay]
  have hrd1 : (txtAdder t r n0).1.pay.txtRDatas = n0.pay.txtRDatas ++ [r] := by
    rw [hshape]; simp [Node.withPay]
  have hfq1 : (txtAdder t r n0).1.pay.fqdn = n0.pay.fqdn := by
    rw [hshape]; simp [Node.withPay]
  have hhastxt : (txtAdder t r n0).1.hasTXT = true := by
    rw [Node.hasTXT, hrd1]; simp
  refine ⟨?_, (txtAdder t r n0).1, hgot, httl1, hrd1, ?_⟩
  · rw [RRDB.AddTXT, apply_get (txtAdder t r) hv hn0]
    exact h2
  · refine ⟨⟨(txtAdder t r n0).1.pay.fqdn, "TXT", t,
      ((txtAdder t r n0).1.pay.txtRDatas).map goQuote⟩, ?_, rfl, by rw [hrd1]⟩
    rw [RRDB.TXT, node_get hv hgot]
    simp only [Except.bind, Node.txt, hhastxt, Bool.not_true, Bool.false_eq_true,
      if_false, httl1]
    rw [if_pos (by exact_mod_cast htnz)]

/-- Witness for C10 at concrete inputs. -/
theorem C10_witness :
    (((RRDB.new.AddTXT "foo.test." 0 "old").1.AddTXT "foo.test." 300 "new").2 = .ok) ∧
    ∃ n1, walkGet ((RRDB.new.AddTXT "foo.test." 0 "old").1.AddTXT
        "foo.test." 300 "new").1.root (revLabels "foo.test.") = .ok n1 ∧
      n1.pay.txtTTL = 300 ∧
      n1.pay.txtRDatas = ["old"] ++ ["new"] ∧
      ∃ rec, ((RRDB.new.AddTXT "foo.test." 0 "old").1.AddTXT
          "foo.test." 300 "new").1.TXT "foo.test." 999 = .ok rec ∧
        rec.TTL = 300 ∧ rec.RDatas = (["old"] ++ ["new"]).map goQuote :=
  C10_nonzero_ttl_after_zero (RRDB.new.AddTXT "foo.test." 0 "old").1 "foo.test."
    300 999 "new" (Node.mk { fqdn := "foo.test.", txtRDatas := ["old"] } .nil)
    (by decide) (by decide) (by decide) (by decide) (by decide) (by decide)
    (by decide) (by decide) (by decide) (by decide) (by decide) (by decide)

/-! ### Claim C5 -/

/-- C5: any store call whose walk must pass through an existing node that
already holds NS fails "FQDN outside authority" and leaves the store
completely unchanged; in particular after a successful
`SetNS("sub.example.com.", 3600, ["ns1.example.com."])`, a
`SetA("leaf.sub.example.com.", 300, ["192.0.2.1"])` fails exactly that
way with an unchanged store (no "leaf" node exists, the delegated node is
untouched), and `Records` on the leaf FQDN also reports the authority
error. -/
theorem C5_delegation_blocks_subtree :
    (∀ (db : RRDB) (fqdn : String) (p rest : List String) (l : String) (tg : Node)
        (f : Node → Node × GoRes),
      IsValidFQDN fqdn = true → revLabels fqdn = p ++ l :: rest →
      walkGet db.root p = .ok tg → tg.hasNS = true →
      db.apply fqdn f = (db, .err "FQDN outside authority")) ∧
    (∀ db db1 : RRDB,
      db.SetNS "sub.example.com." 3600 ["ns1.example.com."] = (db1, .ok) →
      db1.SetA "leaf.sub.example.com." 300 ["192.0.2.1"] =
        (db1, .err "FQDN outside authority") ∧
      db1.Records "leaf.sub.example.com." 300 = .error "FQDN outside authority") := by
  have main : ∀ (db : RRDB) (fqdn : String) (p rest : List String) (l : String)
      (tg : Node) (f : Node → Node × GoRes),
      IsValidFQDN fqdn = true → revLabels fqdn = p ++ l :: rest →
      walkGet db.root p = .ok tg → tg.hasNS = true →
      db.apply fqdn f = (db, .err "FQDN outside authority") := by
    intro db fqdn p rest l tg f hv hrev hget hns
    rw [RRDB.apply, if_neg (by simp [hv]), hrev,
      walkApply_ns_blocked f p db.root tg l rest [] hget hns]
  refine ⟨main, ?_⟩
  intro db db1 hok
  obtain ⟨hv, tg, tg', hbody, hget⟩ := apply_ok hok
  obtain ⟨-, hne, -, -, -, hshape⟩ := nsSetter_ok hbody
  have hhas : tg'.hasNS = true := by
    rw [Node.hasNS, hshape]; simp [Node.withPay, hne]
  have hrev : revLabels "leaf.sub.example.com." =
      revLabels "sub.example.com." ++ "leaf" :: [] := by decide
  refine ⟨?_, ?_⟩
  · exact main db1 "leaf.sub.example.com." (revLabels "sub.example.com.") []
      "leaf" tg' (aSetter 300 ["192.0.2.1"]) (by decide) hrev hget hhas
  · rw [RRDB.Records, RRDB.node, if_neg (by decide), hrev,
      walkGet_ns_blocked (revLabels "sub.example.com.") db1.root tg' "leaf" []
        hget hhas]
    rfl

/-- Witness for C5 from the empty store (the spec's Scenario B). -/
theorem C5_witness :
    (RRDB.new.SetNS "sub.example.com." 3600 ["ns1.example.com."]).1.SetA
        "leaf.sub.example.com." 300 ["192.0.2.1"] =
      ((RRDB.new.SetNS "sub.example.com." 3600 ["ns1.example.com."]).1,
        .err "FQDN outside authority") ∧
    (RRDB.new.SetNS "sub.example.com." 3600 ["ns1.example.com."]).1.Records
        "leaf.sub.example.com." 300 = .error "FQDN outside authority" :=
  C5_delegation_blocks_subtree.2 RRDB.new
    (RRDB.new.SetNS "sub.example.com." 3600 ["ns1.example.com."]).1 (by decide)

/-! ### Claim C4: the exclusivity invariant -/

/-- The per-node exclusivity conditions of the spec: a node holding NS has
no other payload and no children; a node holding CNAME has no other
payload. -/
def nodeOK (p : Payload) (cs : Children) : Bool :=
  (p.nsRDatas.isEmpty ||
    (p.mxRDatas.isEmpty && p.txtRDatas.isEmpty &&
      decide (byteLen p.cnameRdata = 0) && p.aRDatas.isEmpty &&
      p.aaaaRDatas.isEmpty && !cs.isNonEmpty)) &&
  (decide (byteLen p.cnameRdata = 0) ||
    (p.nsRDatas.isEmpty && p.mxRDatas.isEmpty && p.txtRDatas.isEmpty &&
      p.aRDatas.isEmpty && p.aaaaRDatas.isEmpty))

mutual
/-- Every node of the tree satisfies `nodeOK`. -/
def invN : Node → Bool
  | .mk p cs => nodeOK p cs && invC cs
/-- Every child subtree satisfies `invN`. -/
def invC : Children → Bool
  | .nil => true
  | .cons _ c rest => invN c && invC rest
end

theorem invN_mk (p : Payload) (cs : Children) :
    invN (.mk p cs) = (nodeOK p cs && invC cs) := by
  rw [invN]

theorem invC_find : ∀ (cs : Children) (l : String) (c : Node),
    invC cs = true → cs.find l = some c → invN c = true
  | .nil, l, c, h, hf => by simp [Children.find] at hf
  | .cons l0 c0 rest, l, c, h, hf => by
    rw [invC, Bool.and_eq_true] at h
    rw [Children.find] at hf
    by_cases h0 : l0 = l
    · rw [if_pos h0] at hf
      cases hf
      exact h.1
    · rw [if_neg h0] at hf
      exact invC_find rest l c h.2 hf

theorem invC_set : ∀ (cs : Children) (l : String) (c : Node),
    invC cs = true → invN c = true → invC (cs.set l c) = true
  | .nil, l, c, h, hc => by
    rw [Children.set, invC, invC, hc]
    rfl
  | .cons l0 c0 rest, l, c, h, hc => by
    rw [invC, Bool.and_eq_true] at h
    rw [Children.set]
    by_cases h0 : l0 = l
    · rw [if_pos h0, invC, hc, h.2]
      rfl
    · rw [if_neg h0, invC, h.1, invC_set rest l c h.2 hc]
      rfl

/-- A fresh node satisfies the invariant. -/
theorem invN_newNode (s : String) : invN (newNode s) = true := by
  rw [newNode, invN_mk, invC]
  rfl

/-- `nodeOK` ignores the children as soon as the node holds no NS
payload. -/
theorem nodeOK_children (p : Payload) (cs cs' : Children)
    (h : p.nsRDatas.isEmpty = true) : nodeOK p cs = nodeOK p cs' := by
  unfold nodeOK
  rw [h]
  rfl

/-- The mutating walk preserves the invariant as long as the node-level
body does. -/
theorem walkApply_inv (f : Node → Node × GoRes)
    (hf : ∀ t, invN t = true → invN (f t).1 = true) :
    ∀ (ls : List String) (nd : Node) (acc : List String),
      invN nd = true → invN (walkApply f nd ls acc).1 = true
  | [], nd, acc, h => hf nd h
  | l :: rest, nd, acc, h => by
    by_cases hns : nd.hasNS
    · simpa [walkApply, hns] using h
    · cases nd with
      | mk p cs =>
        rw [invN_mk, Bool.and_eq_true] at h
        have hnse : p.nsRDatas.isEmpty = true := by
          simpa [Node.hasNS] using hns
        cases hfind : Children.find cs l with
        | some c =>
          simp only [walkApply, Node.hasNS, Node.pay_mk, hfind, hnse,
            Bool.not_true, Bool.false_eq_true, if_false, Node.children_mk]
          rw [invN_mk, Bool.and_eq_true]
          constructor
          · rw [nodeOK_children p _ cs hnse]
            exact h.1
          · exact invC_set cs l _ h.2
              (walkApply_inv f hf rest c (l :: acc) (invC_find cs l c h.2 hfind))
        | none =>
          simp only [walkApply, Node.hasNS, Node.pay_mk, hfind, hnse,
            Bool.not_true, Bool.false_eq_true, if_false, Node.children_mk]
          rw [invN_mk, Bool.and_eq_true]
          constructor
          · rw [nodeOK_children p _ cs hnse]
            exact h.1
          · exact invC_set cs l _ h.2
              (walkApply_inv f hf rest (newNode (madeFqdn l acc)) (l :: acc)
                (invN_newNode _))

/-- The `SetNS` body preserves the invariant: it only succeeds on a node
with no payload and no children. -/
theorem nsSetter_inv (ttl : Int) (rdatas : List String) :
    ∀ t, invN t = true → invN (nsSetter ttl rdatas t).1 = true := by
  intro t h
  by_cases hok : (nsSetter ttl rdatas t).2 = .ok
  · have heq : nsSetter ttl rdatas t = ((nsSetter ttl rdatas t).1, .ok) := by
      rw [← hok]
    obtain ⟨-, -, -, hnor, hnoch, hshape⟩ := nsSetter_ok heq
    rw [hshape]
    cases t with
    | mk p cs =>
      simp only [Node.hasRecords, Node.hasNS, Node.hasMX, Node.hasTXT,
        Node.hasCNAME, Node.hasA, Node.hasAAAA, Node.pay_mk, Bool.or_eq_false_iff,
        Bool.not_eq_false', decide_eq_false_iff_not, Decidable.not_not] at hnor
      simp only [Node.hasChildren, Node.children_mk, Bool.not_eq_true'] at hnoch
      rw [invN_mk, Bool.and_eq_true] at h
      rw [Node.withPay, Node.pay_mk, Node.children_mk, invN_mk, Bool.and_eq_true]
      refine ⟨?_, h.2⟩
      unfold nodeOK
      simp only [hnor.1.1.1.1.1, hnor.1.1.1.1.2, hnor.1.1.1.2, hnor.1.1.2,
        hnor.1.2, hnor.2, hnoch, decide_eq_true_eq]
      simp
  · rw [nsSetter_err_id ttl rdatas t hok]
    exact h

/-- The `SetMX` body preserves the invariant. -/
theorem mxSetter_inv (ttl : Int) (rdatas : List String) :
    ∀ t, invN t = true → invN (mxSetter ttl rdatas t).1 = true := by
  intro t h
  by_cases hok : (mxSetter ttl rdatas t).2 = .ok
  · have heq : mxSetter ttl rdatas t = ((mxSetter ttl rdatas t).1, .ok) := by
      rw [← hok]
    obtain ⟨-, -, -, hnons, hnoc, hshape⟩ := mxSetter_ok heq
    rw [hshape]
    cases t with
    | mk p cs =>
      simp only [Node.hasNS, Node.pay_mk, Bool.not_eq_false'] at hnons
      simp only [Node.hasCNAME, Node.pay_mk, decide_eq_false_iff_not,
        Decidable.not_not] at hnoc
      rw [invN_mk, Bool.and_eq_true] at h
      rw [Node.withPay, Node.pay_mk, Node.children_mk, invN_mk, Bool.and_eq_true]
      refine ⟨?_, h.2⟩
      unfold nodeOK
      simp [hnons, hnoc]
  · rw [mxSetter_err_id ttl rdatas t hok]
    exact h

/-- The `AddTXT` body preserves the invariant. -/
theorem txtAdder_inv (ttl : Int) (rdata : String) :
    ∀ t, invN t = true → invN (txtAdder ttl rdata t).1 = true := by
  intro t h
  by_cases hok : (txtAdder ttl rdata t).2 = .ok
  · have heq : txtAdder ttl rdata t = ((txtAdder ttl rdata t).1, .ok) := by
      rw [← hok]
    obtain ⟨-, -, -, -, -, hnons, hnoc, hshape⟩ := txtAdder_ok heq
    rw [hshape]
    cases t with
    | mk p cs =>
      simp only [Node.hasNS, Node.pay_mk, Bool.not_eq_false'] at hnons
      simp only [Node.hasCNAME, Node.pay_mk, decide_eq_false_iff_not,
        Decidable.not_not] at hnoc
      rw [invN_mk, Bool.and_eq_true] at h
      rw [Node.withPay, Node.pay_mk, Node.children_mk, invN_mk, Bool.and_eq_true]
      refine ⟨?_, h.2⟩
      unfold nodeOK
      simp [hnons, hnoc]
  · rw [txtAdder_err_id ttl rdata t hok]
    exact h

/-- The `SetCNAME` body preserves the invariant: it only succeeds on a
node with no payload. -/
theorem cnameSetter_inv (ttl : Int) (rdata : String) :
    ∀ t, invN t = true → invN (cnameSetter ttl rdata t).1 = true := by
  intro t h
  by_cases hok : (cnameSetter ttl rdata t).2 = .ok
  · have heq : cnameSetter ttl rdata t = ((cnameSetter ttl rdata t).1, .ok) := by
      rw [← hok]
    obtain ⟨-, -, -, hnor, hshape⟩ := cnameSetter_ok heq
    rw [hshape]
    cases t with
    | mk p cs =>
      simp only [Node.hasRecords, Node.hasNS, Node.hasMX, Node.hasTXT,
        Node.hasCNAME, Node.hasA, Node.hasAAAA, Node.pay_mk, Bool.or_eq_false_iff,
        Bool.not_eq_false', decide_eq_false_iff_not, Decidable.not_not] at hnor
      rw [invN_mk, Bool.and_eq_true] at h
      rw [Node.withPay, Node.pay_mk, Node.children_mk, invN_mk, Bool.and_eq_true]
      refine ⟨?_, h.2⟩
      unfold nodeOK
      simp only [hnor.1.1.1.1.1, hnor.1.1.1.1.2, hnor.1.1.1.2, hnor.1.2, hnor.2]
      simp
  · rw [cnameSetter_err_id ttl rdata t hok]
    exact h

/-- The `SetA` body preserves the invariant. -/
theorem aSetter_inv (ttl : Int) (rdatas : List String) :
    ∀ t, invN t = true → invN (aSetter ttl rdatas t).1 = true := by
  intro t h
  by_cases hok : (aSetter ttl rdatas t).2 = .ok
  · have heq : aSetter ttl rdatas t = ((aSetter ttl rdatas t).1, .ok) := by
      rw [← hok]
    obtain ⟨-, -, -, hnons, hnoc, hshape⟩ := aSetter_ok heq
    rw [hshape]
    cases t with
    | mk p cs =>
      simp only [Node.hasNS, Node.pay_mk, Bool.not_eq_false'] at hnons
      simp only [Node.hasCNAME, Node.pay_mk, decide_eq_false_iff_not,
        Decidable.not_not] at hnoc
      rw [invN_mk, Bool.and_eq_true] at h
      rw [Node.withPay, Node.pay_mk, Node.children_mk, invN_mk, Bool.and_eq_true]
      refine ⟨?_, h.2⟩
      unfold nodeOK
      simp [hnons, hnoc]
  · rw [aSetter_err_id ttl rdatas t hok]
    exact h

/-- The `SetAAAA` body preserves the invariant. -/
theorem aaaaSetter_inv (ttl : Int) (rdatas : List String) :
    ∀ t, invN t = true → invN (aaaaSetter ttl rdatas t).1 = true := by
  intro t h
  by_cases hok : (aaaaSetter ttl rdatas t).2 = .ok
  · have heq : aaaaSetter ttl rdatas t = ((aaaaSetter ttl rdatas t).1, .ok) := by
      rw [← hok]
    obtain ⟨-, -, -, hnons, hnoc, hshape⟩ := aaaaSetter_ok heq
    rw [hshape]
    cases t with
    | mk p cs =>
      simp only [Node.hasNS, Node.pay_mk, Bool.not_eq_false'] at hnons
      simp only [Node.hasCNAME, Node.pay_mk, decide_eq_false_iff_not,
        Decidable.not_not] at hnoc
      rw [invN_mk, Bool.and_eq_true] at h
      rw [Node.withPay, Node.pay_mk, Node.children_mk, invN_mk, Bool.and_eq_true]
      refine ⟨?_, h.2⟩
      unfold nodeOK
      simp [hnons, hnoc]
  · rw [aaaaSetter_err_id ttl rdatas t hok]
    exact h

/-- A whole store call preserves the invariant when its body does. -/
theorem apply_inv (db : RRDB) (fqdn : String) (f : Node → Node × GoRes)
    (hf : ∀ t, invN t = true → invN (f t).1 = true)
    (h : invN db.root = true) : invN (db.apply fqdn f).1.root = true := by
  by_cases hv : IsValidFQDN fqdn
  · simp only [RRDB.apply, hv, Bool.not_true, Bool.false_eq_true, if_false]
    exact walkApply_inv f hf _ db.root [] h
  · rw [RRDB.apply, if_pos (by simpa using hv)]
    exact h

/-- Every single store call preserves the invariant. -/
theorem op_inv (op : Op) (db : RRDB) (h : invN db.root = true) :
    invN (op.run db).1.root = true := by
  cases op with
  | opSetNS f t r => exact apply_inv db f _ (nsSetter_inv t r) h
  | opSetMX f t r => exact apply_inv db f _ (mxSetter_inv t r) h
  | opAddTXT f t r => exact apply_inv db f _ (txtAdder_inv t r) h
  | opSetCNAME f t r => exact apply_inv db f _ (cnameSetter_inv t r) h
  | opSetA f t r => exact apply_inv db f _ (aSetter_inv t r) h
  | opSetAAAA f t r => exact apply_inv db f _ (aaaaSetter_inv t r) h

/-- Every call sequence preserves the invariant. -/
theorem runOps_inv : ∀ (ops : List Op) (db : RRDB), invN db.root = true →
    invN (runOps db ops).root = true
  | [], _, h => h
  | op :: ops, db, h => runOps_inv ops _ (op_inv op db h)

/-- `AddTXT` never succeeds on a node holding NS or CNAME. -/
theorem txtAdder_conflict (ttl : Int) (rdata : String) (nd : Node)
    (h : nd.hasNS = true ∨ nd.hasCNAME = true) :
    GoRes.isErr (txtAdder ttl rdata nd).2 = true := by
  have hc : (nd.hasNS || nd.hasCNAME) = true := by rcases h with h | h <;> simp [h]
  unfold txtAdder
  split
  · rfl
  · split
    · rfl
    · split
      · rfl
      · split
        · rfl
        · split
          · rfl
          · rfl

/-- `SetA` never succeeds on a node holding NS or CNAME. -/
theorem aSetter_conflict (ttl : Int) (rdatas : List String) (nd : Node)
    (h : nd.hasNS = true ∨ nd.hasCNAME = true) :
    GoRes.isErr (aSetter ttl rdatas nd).2 = true := by
  have hc : (nd.hasNS || nd.hasCNAME) = true := by rcases h with h | h <;> simp [h]
  unfold aSetter
  split
  · rfl
  · split
    · rfl
    · split
      · rfl
      · split
        · rfl
        · rfl

/-- `SetAAAA` never succeeds on a node holding NS or CNAME. -/
theorem aaaaSetter_conflict (ttl : Int) (rdatas : List String) (nd : Node)
    (h : nd.hasNS = true ∨ nd.hasCNAME = true) :
    GoRes.isErr (aaaaSetter ttl rdatas nd).2 = true := by
  have hc : (nd.hasNS || nd.hasCNAME) = true := by rcases h with h | h <;> simp [h]
  unfold aaaaSetter
  split
  · rfl
  · split
    · rfl
    · split
      · rfl
      · split
        · rfl
        · rfl

/-- `SetMX` never succeeds on a node holding NS or CNAME; it reports an
error whenever its rdata check does not panic. -/
theorem mxSetter_conflict (ttl : Int) (rdatas : List String) (nd : Node)
    (h : nd.hasNS = true ∨ nd.hasCNAME = true)
    (hp : ∀ m, mxCheck rdatas [] ≠ .panic m) :
    GoRes.isErr (mxSetter ttl rdatas nd).2 = true := by
  have hc : (nd.hasNS || nd.hasCNAME) = true := by rcases h with h | h <;> simp [h]
  unfold mxSetter
  split
  · rfl
  · split
    · rfl
    · split
      · rfl
      · split
        · rfl
        · rename_i heq
          exfalso
          by_cases hr : rdatas = ["0 ."]
          · rw [if_pos hr] at heq
            cases heq
          · rw [if_neg hr] at heq
            exact hp _ heq
        · rfl

/-- `SetNS` never succeeds on a node that already holds any payload. -/
theorem nsSetter_conflict (ttl : Int) (rdatas : List String) (nd : Node)
    (h : nd.hasRecords = true) :
    GoRes.isErr (nsSetter ttl rdatas nd).2 = true := by
  unfold nsSetter
  split
  · rfl
  · split
    · rfl
    · split
      · rfl
      · split
        · rfl
        · rfl

/-- `SetCNAME` never succeeds on a node that already holds any payload. -/
theorem cnameSetter_conflict (ttl : Int) (rdata : String) (nd : Node)
    (h : nd.hasRecords = true) :
    GoRes.isErr (cnameSetter ttl rdata nd).2 = true := by
  unfold cnameSetter
  split
  · rfl
  · split
    · rfl
    · split
      · rfl
      · rfl

/-- C4: after every sequence of store calls starting from the empty store
(successful or rejected), every node satisfies the exclusivity
invariants — a node holding NS has no MX/TXT/CNAME/A/AAAA payload and no
children; a node holding CNAME has no other payload — and in both
insertion orders it is the second conflicting call that is rejected: on a
node holding NS or CNAME every later AddTXT/SetA/SetAAAA (and every SetMX
whose rdata check does not panic) reports an error, and on a node holding
any payload every later SetNS or SetCNAME reports an error. -/
theorem C4_exclusivity_invariant :
    (∀ ops : List Op, invN (runOps RRDB.new ops).root = true) ∧
    (∀ (db : RRDB) (f : String) (tg : Node), IsValidFQDN f = true →
      walkGet db.root (revLabels f) = .ok tg →
      ((tg.hasNS = true ∨ tg.hasCNAME = true) →
        (∀ t r, GoRes.isErr (db.AddTXT f t r).2 = true) ∧
        (∀ t r, GoRes.isErr (db.SetA f t r).2 = true) ∧
        (∀ t r, GoRes.isErr (db.SetAAAA f t r).2 = true) ∧
        (∀ t r, (∀ m, mxCheck r [] ≠ .panic m) →
          GoRes.isErr (db.SetMX f t r).2 = true)) ∧
      (tg.hasRecords = true →
        (∀ t r, GoRes.isErr (db.SetNS f t r).2 = true) ∧
        (∀ t r, GoRes.isErr (db.SetCNAME f t r).2 = true))) := by
  constructor
  · intro ops
    exact runOps_inv ops RRDB.new (invN_newNode "")
  · intro db f tg hv hget
    refine ⟨fun hx => ⟨?_, ?_, ?_, ?_⟩, fun hr => ⟨?_, ?_⟩⟩
    · intro t r
      rw [RRDB.AddTXT, apply_get (txtAdder t r) hv hget]
      exact txtAdder_conflict t r tg hx
    · intro t r
      rw [RRDB.SetA, apply_get (aSetter t r) hv hget]
      exact aSetter_conflict t r tg hx
    · intro t r
      rw [RRDB.SetAAAA, apply_get (aaaaSetter t r) hv hget]
      exact aaaaSetter_conflict t r tg hx
    · intro t r hp
      rw [RRDB.SetMX, apply_get (mxSetter t r) hv hget]
      exact mxSetter_conflict t r tg hx hp
    · intro t r
      rw [RRDB.SetNS, apply_get (nsSetter t r) hv hget]
      exact nsSetter_conflict t r tg hr
    · intro t r
      rw [RRDB.SetCNAME, apply_get (cnameSetter t r) hv hget]
      exact cnameSetter_conflict t r tg hr

/-- Witness for C4: a two-call sequence keeps the invariant, and a
delegated node rejects a later `AddTXT` while a node holding an A record
rejects a later `SetNS`. -/
theorem C4_witness :
    invN (runOps RRDB.new
      [.opSetNS "foo.test." 300 ["ns1.example.com."],
       .opSetA "foo.test." 300 ["192.0.2.1"]]).root = true ∧
    GoRes.isErr (((RRDB.new.SetNS "foo.test." 300 ["ns1.example.com."]).1.AddTXT
      "foo.test." 300 "hello").2) = true ∧
    GoRes.isErr (((RRDB.new.SetA "foo.test." 300 ["192.0.2.1"]).1.SetNS
      "foo.test." 300 ["ns1.example.com."]).2) = true :=
  ⟨C4_exclusivity_invariant.1
      [.opSetNS "foo.test." 300 ["ns1.example.com."],
       .opSetA "foo.test." 300 ["192.0.2.1"]],
   ((C4_exclusivity_invariant.2 (RRDB.new.SetNS "foo.test." 300 ["ns1.example.com."]).1
      "foo.test."
      (Node.mk { fqdn := "foo.test.", nsRDatas := ["ns1.example.com."], nsTTL := 300 } .nil)
      (by decide) (by decide)).1 (Or.inl (by decide))).1 300 "hello",
   ((C4_exclusivity_invariant.2 (RRDB.new.SetA "foo.test." 300 ["192.0.2.1"]).1
      "foo.test."
      (Node.mk { fqdn := "foo.test.", aRDatas := ["192.0.2.1"], aTTL := 300 } .nil)
      (by decide) (by decide)).2 (by decide)).1 300 ["ns1.example.com."]⟩

/-! ### Claim C7: `Zone` as the union over the subtree -/

mutual
/-- A node followed by all of its descendants, pre-order. -/
def Node.subtree : Node → List Node
  | .mk p cs => .mk p cs :: Children.subtreeAll cs
/-- All nodes of all child subtrees. -/
def Children.subtreeAll : Children → List Node
  | .nil => []
  | .cons _ c rest => c.subtree ++ Children.subtreeAll rest
end

mutual
/-- The multiset of a recursive `records` call is the sum of the per-node
`records` over the subtree. -/
def recordsSplitN : ∀ (nd : Node) (ttl : Int),
    ((nd.records ttl true : List Record) : Multiset Record) =
      (nd.subtree.map (fun m => ((m.records ttl false : List Record) : Multiset Record))).sum
  | .mk p cs, ttl => by
    simp only [Node.records, Node.subtree, if_pos, List.map_cons, List.sum_cons]
    rw [← Multiset.coe_add, recordsSplitC cs ttl]
    simp [Multiset.coe_add]
/-- Children version of `recordsSplitN`. -/
def recordsSplitC : ∀ (cs : Children) (ttl : Int),
    ((Children.recordsAll cs ttl : List Record) : Multiset Record) =
      ((Children.subtreeAll cs).map
        (fun m => ((m.records ttl false : List Record) : Multiset Record))).sum
  | .nil, ttl => rfl
  | .cons l c rest, ttl => by
    simp only [Children.recordsAll, Children.subtreeAll, List.map_append,
      List.sum_append]
    rw [← Multiset.coe_add, recordsSplitN c ttl, recordsSplitC rest ttl]
end

mutual
/-- Two trees are similar when every node carries the same payload and
the children maps hold similar subtrees under the same labels, in a
possibly different insertion order. -/
inductive NodeSim : Node → Node → Prop
  | mk {p : Payload} {cs cs' : Children} :
      ChildrenSim cs cs' → NodeSim (.mk p cs) (.mk p cs')
/-- Permutation-with-similarity of children maps (the generators of
`List.Perm`, pointwise up to `NodeSim`). -/
inductive ChildrenSim : Children → Children → Prop
  | nil : ChildrenSim .nil .nil
  | cons {l : String} {c c' : Node} {rest rest' : Children} :
      NodeSim c c' → ChildrenSim rest rest' →
      ChildrenSim (.cons l c rest) (.cons l c' rest')
  | swap {l1 : String} {c1 : Node} {l2 : String} {c2 : Node} {rest : Children} :
      ChildrenSim (.cons l1 c1 (.cons l2 c2 rest)) (.cons l2 c2 (.cons l1 c1 rest))
  | trans {a b c : Children} :
      ChildrenSim a b → ChildrenSim b c → ChildrenSim a c
end

theorem Node.ownRecords_mk (p : Payload) (cs cs' : Children) (ttl : Int) :
    (Node.mk p cs).ownRecords ttl = (Node.mk p cs').ownRecords ttl := rfl

theorem Node.records_mk (p : Payload) (cs : Children) (ttl : Int) (wc : Bool) :
    (Node.mk p cs).records ttl wc =
      (Node.mk p cs).ownRecords ttl ++
        (if wc then Children.recordsAll cs ttl else []) := by
  rw [Node.records]

theorem Children.recordsAll_cons (l : String) (c : Node) (rest : Children) (ttl : Int) :
    Children.recordsAll (.cons l c rest) ttl =
      c.records ttl true ++ Children.recordsAll rest ttl := by
  rw [Children.recordsAll]

/-- Similar children maps produce the same multiset of recursive records
(proved with the mutual recursor of `NodeSim`/`ChildrenSim`). -/
theorem childrenSimRecords {cs0 cs0' : Children} (h : ChildrenSim cs0 cs0') :
    ∀ ttl : Int,
      ((Children.recordsAll cs0 ttl : List Record) : Multiset Record) =
        ((Children.recordsAll cs0' ttl : List Record) : Multiset Record) := by
  refine @ChildrenSim.rec
    (fun a b _ => ∀ ttl : Int,
      ((a.records ttl true : List Record) : Multiset Record) =
        ((b.records ttl true : List Record) : Multiset Record))
    (fun cs cs' _ => ∀ ttl : Int,
      ((Children.recordsAll cs ttl : List Record) : Multiset Record) =
        ((Children.recordsAll cs' ttl : List Record) : Multiset Record))
    ?_ ?_ ?_ ?_ ?_ cs0 cs0' h
  · intro p cs cs' a ih ttl
    rw [Node.records_mk, Node.records_mk, if_pos rfl, if_pos rfl,
      Node.ownRecords_mk p cs' cs]
    rw [← Multiset.coe_add, ← Multiset.coe_add, ih ttl]
  · intro ttl
    rfl
  · intro l c c' rest rest' hn hc ihn ihc ttl
    rw [Children.recordsAll_cons, Children.recordsAll_cons]
    rw [← Multiset.coe_add, ← Multiset.coe_add, ihn ttl, ihc ttl]
  · intro l1 c1 l2 c2 rest ttl
    rw [Children.recordsAll_cons, Children.recordsAll_cons,
      Children.recordsAll_cons, Children.recordsAll_cons]
    rw [← Multiset.coe_add, ← Multiset.coe_add, ← Multiset.coe_add,
      ← Multiset.coe_add]
    exact add_left_comm _ _ _
  · intro a b c h1 h2 ih1 ih2 ttl
    exact (ih1 ttl).trans (ih2 ttl)

/-- Similar trees produce the same multiset of recursive records. -/
theorem nodeSimRecords {a b : Node} (h : NodeSim a b) (ttl : Int) :
    ((a.records ttl true : List Record) : Multiset Record) =
      ((b.records ttl true : List Record) : Multiset Record) := by
  cases h with
  | mk hcs =>
    rename_i p cs cs'
    rw [Node.records_mk, Node.records_mk, if_pos rfl, if_pos rfl,
      Node.ownRecords_mk p cs' cs]
    rw [← Multiset.coe_add, ← Multiset.coe_add, childrenSimRecords hcs ttl]

/-- C7: whenever `Zone(f, ttl)` answers, the node for `f` exists,
`Records(f, ttl)` answers with that node's own records, and the multiset
of `Zone`'s records is the sum of the per-node records over `f`'s whole
subtree; moreover the multiset is invariant under reordering the children
maps (Go map iteration order / child insertion order). -/
theorem C7_zone_is_subtree_union :
    (∀ (db : RRDB) (f : String) (ttl : Int) (rs : List Record),
      db.Zone f ttl = .ok rs →
      ∃ nd, db.node f = .ok nd ∧ db.Records f ttl = .ok (nd.records ttl false) ∧
        ((rs : List Record) : Multiset Record) =
          (nd.subtree.map
            (fun m => ((m.records ttl false : List Record) : Multiset Record))).sum) ∧
    (∀ (a b : Node) (ttl : Int), NodeSim a b →
      ((a.records ttl true : List Record) : Multiset Record) =
        ((b.records ttl true : List Record) : Multiset Record)) := by
  constructor
  · intro db f ttl rs h
    rw [RRDB.Zone] at h
    cases hn : db.node f with
    | error e => rw [hn] at h; cases h
    | ok nd =>
      rw [hn] at h
      simp only [Except.map] at h
      cases h
      exact ⟨nd, rfl, by rw [RRDB.Records, hn]; rfl, recordsSplitN nd ttl⟩
  · intro a b ttl h
    exact nodeSimRecords h ttl

/-- Witness for C7: a two-level store, plus two stores whose root children
are swapped. -/
theorem C7_witness :
    (∃ nd, (RRDB.new.SetA "foo.test." 300 ["192.0.2.1"]).1.node "test." = .ok nd ∧
      (RRDB.new.SetA "foo.test." 300 ["192.0.2.1"]).1.Records "test." 600 =
        .ok (nd.records 600 false) ∧
      ((((RRDB.new.SetA "foo.test." 300 ["192.0.2.1"]).1.Zone "test." 600).toOption.getD []
          : List Record) : Multiset Record) =
        (nd.subtree.map
          (fun m => ((m.records 600 false : List Record) : Multiset Record))).sum) ∧
    ((Node.mk { fqdn := "test." }
        (.cons "a" (Node.mk { fqdn := "a.test.", aRDatas := ["192.0.2.1"], aTTL := 60 } .nil)
          (.cons "b" (Node.mk { fqdn := "b.test.", aRDatas := ["192.0.2.2"], aTTL := 60 } .nil)
            .nil))).records 600 true : Multiset Record) =
      ((Node.mk { fqdn := "test." }
        (.cons "b" (Node.mk { fqdn := "b.test.", aRDatas := ["192.0.2.2"], aTTL := 60 } .nil)
          (.cons "a" (Node.mk { fqdn := "a.test.", aRDatas := ["192.0.2.1"], aTTL := 60 } .nil)
            .nil))).records 600 true : Multiset Record) :=
  ⟨C7_zone_is_subtree_union.1 (RRDB.new.SetA "foo.test." 300 ["192.0.2.1"]).1 "test." 600
      (((RRDB.new.SetA "foo.test." 300 ["192.0.2.1"]).1.Zone "test." 600).toOption.getD [])
      (by decide),
   C7_zone_is_subtree_union.2 _ _ 600 (NodeSim.mk ChildrenSim.swap)⟩

end DnsTools
